import Mathlib

/-!
Shallow embedding of `src/functionParser.ts` (class `FunctionParser`).

The TypeScript program discovers handler modules by filename convention and
wires them into two delivery mechanisms:
  * `buildReactiveFunctions` merges exports of every `*.function.js` file into
    `exports[groupName]`;
  * `buildRestfulApi` registers every `*.endpoint.js` file as one HTTP route on
    a per-group express Router, mounts each router on a single shared express
    application, and publishes `functions.https.onRequest(app)` under the
    `api` key of `exports[groupName]`.

Modelling decisions:
  * JS objects are association lists (`List (String × _)`); property update
    keeps the position of an existing key and appends a fresh key, matching JS
    property-order semantics. Spread `{...a, ...b}` is a fold of updates.
  * File discovery (glob) is modelled by passing the list of discovered paths,
    each paired with the loaded module content (`require(file)` cannot fail for
    a discovered file in the modelled fragment).
  * Node's `path.parse` is modelled at the precision the program uses: `dir`
    (directory part) and `name` (basename without the final extension).
  * JS `String.replace(pat, '')` with a string pattern removes only the first
    occurrence of `pat`; this is modelled exactly (`replaceFirst`).
  * express Routers are layer lists: `router.use(m)` appends a middleware
    layer, `router.get/post/...` appends a route layer.  Router identity (JS
    object references held by the `groupRouters` map and by `app.use`) is
    modelled with an explicit heap `routers : List RouterState` indexed by
    natural-number ids.
  * The single `express()` application created by `buildRestfulApi` is the list
    of router ids mounted on it (`app.use('/', router)` appends an id).
    `functions.https.onRequest(app)` is the opaque value `Value.api`; since
    only one application object ever exists per `buildRestfulApi` call, the
    routes reachable through any published adapter are the routes of that
    shared application (`routeExposed`).
  * Thrown JS errors are `Except` errors carrying the message and the state at
    throw time (mutations performed before the throw persist, as in JS).
-/

namespace FunctionParser

/-- A value stored in the caller-supplied `exports` namespace: either an opaque
exported member of a background-function module (tagged by a number), or the
`functions.https.onRequest(app)` adapter published under the `api` key. -/
inductive Value where
  | fn (tag : Nat)
  | api
deriving DecidableEq, Repr

/-- A JS object, as an association list in property order. -/
abbrev JSObject := List (String × Value)

/-- The caller-supplied mutable `exports` namespace: group key ↦ group object. -/
abbrev Namespace := List (String × JSObject)

/-- JS property write `o[k] = v`: updates an existing key in place, appends a
fresh key. Also models `Map.prototype.set`. -/
def setKey {α : Type} (o : List (String × α)) (k : String) (v : α) : List (String × α) :=
  match o with
  | [] => [(k, v)]
  | (k', v') :: rest => if k' = k then (k', v) :: rest else (k', v') :: setKey rest k v

/-- JS property read `o[k]`: first (unique) binding of `k`, `none` = undefined.
Also models `Map.prototype.get`. -/
def getKey {α : Type} (o : List (String × α)) (k : String) : Option α :=
  match o with
  | [] => none
  | (k', v) :: rest => if k' = k then some v else getKey rest k

/-- JS object spread `{...a, ...b}`: all of `b`'s properties written onto a
copy of `a`. -/
def spread (a b : JSObject) : JSObject :=
  b.foldl (fun o kv => setKey o kv.1 kv.2) a

/-- JS `s.split('/')` on the character list of a string. -/
def splitOnSlash : List Char → List (List Char)
  | [] => [[]]
  | c :: cs =>
    let r := splitOnSlash cs
    if c = '/' then [] :: r
    else
      match r with
      | [] => [[c]]
      | seg :: segs => (c :: seg) :: segs

/-- JS `s.split('/')`. -/
def splitPath (s : String) : List String :=
  (splitOnSlash s.data).map (fun cs => String.mk cs)

/-- Join path segments back with `/` (inverse of `splitPath` on its image). -/
def joinSlash : List String → String
  | [] => ""
  | [s] => s
  | s :: rest => s ++ "/" ++ joinSlash rest

/-- Index of the last occurrence of a character in a character list. -/
def lastIdxOf (c : Char) : List Char → Option Nat
  | [] => none
  | x :: xs =>
    match lastIdxOf c xs with
    | some i => some (i + 1)
    | none => if x = c then some 0 else none

/-- Node `path.parse(file).dir`: everything before the last `/` (with the
posix root special case); `""` when the path has no `/`. -/
def parseDir (file : String) : String :=
  let parts := splitPath file
  if parts.length ≤ 1 then ""
  else
    let d := joinSlash parts.dropLast
    if d = "" then "/" else d

/-- Node `path.parse(file).base`: the part after the last `/`. -/
def parseBase (file : String) : String :=
  (splitPath file).getLastD ""

/-- Node `path.parse(file).name`: the base without its final extension (a
leading dot does not start an extension). -/
def parseName (file : String) : String :=
  let b := parseBase file
  match lastIdxOf '.' b.data with
  | none => b
  | some 0 => b
  | some i => String.mk (b.data.take i)

/-- JS `s.replace(pat, '')` with a string pattern: remove the first occurrence
of `pat` (the string is unchanged when `pat` does not occur). -/
def replaceFirstAux (pat : List Char) : List Char → List Char
  | [] => []
  | c :: cs =>
    if pat.isPrefixOf (c :: cs) then (c :: cs).drop pat.length
    else c :: replaceFirstAux pat cs

/-- JS `s.replace(pat, '')`, see `replaceFirstAux`. -/
def replaceFirst (s pat : String) : String :=
  String.mk (replaceFirstAux pat.data s.data)

/-- JS array read `l[i]` with a possibly negative index (negative or
out-of-range indices yield undefined). -/
def jsStringAt (l : List String) (i : Int) : Option String :=
  if i < 0 then none else l.get? i.toNat

/-- `buildReactiveFunctions` group key (`functionParser.ts` lines 89–93):
`filePath.dir.split('/')`, then `directories[directories.length - 2] || ''`
when grouping by folder, else `directories[directories.length - 1] || ''`. -/
def groupNameReactive (groupByFolder : Bool) (file : String) : String :=
  let directories := splitPath (parseDir file)
  if groupByFolder then
    (jsStringAt directories ((directories.length : Int) - 2)).getD ""
  else
    (jsStringAt directories ((directories.length : Int) - 1)).getD ""

/-- `buildRestfulApi` group key (`functionParser.ts` lines 136–140); the same
expression as in the reactive pass. -/
def groupNameRest (groupByFolder : Bool) (file : String) : String :=
  let directories := splitPath (parseDir file)
  if groupByFolder then
    (jsStringAt directories ((directories.length : Int) - 2)).getD ""
  else
    (jsStringAt directories ((directories.length : Int) - 1)).getD ""

/-- Spec §4.1, stated from the spec's words for refinement comparison: "if
folder-grouping is enabled, use the second-to-last path segment …; otherwise
use the immediate containing folder's name.  Empty/missing segments degrade to
an empty string group key." -/
def specGroupKey (groupByFolder : Bool) (file : String) : String :=
  let segs := splitPath (parseDir file)
  let sel := if groupByFolder then segs.reverse.get? 1 else segs.reverse.get? 0
  match sel with
  | none => ""
  | some s => s

/-- `filePath.name.replace('.function', '')` (line 95). -/
def functionName (file : String) : String :=
  replaceFirst (parseName file) ".function"

/-- The guard `!process.env.FUNCTION_NAME || process.env.FUNCTION_NAME ===
functionName` (lines 97–100).  `none` models an unset variable; a set empty
string is falsy in JS, hence also passes the first disjunct. -/
def selectedFn (envFunctionName : Option String) (fname : String) : Bool :=
  match envFunctionName with
  | none => true
  | some s => s = "" || s = fname

/-- One iteration of the `functionFiles.forEach` body of
`buildReactiveFunctions` (lines 86–110), acting on the exports namespace.  A
discovered file is the pair of its path and its `require`d exports object. -/
def reactiveStep (env : Option String) (groupByFolder : Bool)
    (exports : Namespace) (f : String × JSObject) : Namespace :=
  let groupName := groupNameReactive groupByFolder f.1
  let fname := functionName f.1
  if selectedFn env fname then
    let exports1 :=
      if (getKey exports groupName).isNone then setKey exports groupName [] else exports
    setKey exports1 groupName (spread ((getKey exports1 groupName).getD []) f.2)
  else exports

/-- `buildReactiveFunctions` (lines 74–112) over the discovered file list. -/
def buildReactiveFunctions (env : Option String) (groupByFolder : Bool)
    (files : List (String × JSObject)) (exports : Namespace) : Namespace :=
  files.foldl (reactiveStep env groupByFolder) exports

/-- The five supported request methods (spec §3: closed enumeration). -/
inductive Method where
  | get
  | post
  | put
  | delete
  | patch
deriving DecidableEq, Repr

/-- An express middleware callable, opaque (tagged by a number). -/
abbrev Middleware := Nat

/-- A request handler callable, opaque (tagged by a number). -/
abbrev Handler := Nat

/-- Modelled from the spec: the `options` part of the endpoint descriptor shape
`{ enableCors?, enableFileUpload?, middlewares? }` (spec §3); the type itself
lives in `src/models.ts`, which is not part of the sources.  Absent boolean
flags are JS-falsy, hence modelled as `false`. -/
structure EndpointOptions where
  enableCors : Bool := false
  enableFileUpload : Bool := false
  middlewares : Option (List Middleware) := none
deriving DecidableEq, Repr

/-- Modelled from the spec: the endpoint descriptor
`{ name?, requestType, handler, options? }` (spec §3, §6) exported as the
default export of an endpoint module; `Endpoint` and `RequestType` live in
`src/models.ts`, which is not part of the sources.  `requestType` is carried
as its string value so that unrecognized values (spec: e.g. `"HEAD"`) are
representable. -/
structure Endpoint where
  name : Option String := none
  requestType : String
  handler : Handler
  options : Option EndpointOptions := none
deriving DecidableEq, Repr

/-- The five-way `switch (endpoint.requestType)` dispatch (lines 204–223);
`none` is the `default` branch. -/
def dispatchMethod (rt : String) : Option Method :=
  if rt = "GET" then some Method.get
  else if rt = "POST" then some Method.post
  else if rt = "PUT" then some Method.put
  else if rt = "DELETE" then some Method.delete
  else if rt = "PATCH" then some Method.patch
  else none

/-- One layer of an express Router, in registration order: blanket middleware
added by `router.use` (`cors()` or `fileUpload()`), or a route added by
`router.get/post/put/delete/patch` carrying its path, per-route middleware
chain and handler. -/
inductive Layer where
  | cors
  | fileUpload
  | route (method : Method) (path : String) (middlewares : List Middleware) (handler : Handler)
deriving DecidableEq, Repr

/-- The state of one express Router: its layers in registration order. -/
abbrev RouterState := List Layer

/-- `endpoint.name || filePath.name.replace('.endpoint', '')` (lines 186–187);
a present-but-empty `name` is JS-falsy. -/
def endpointFileName (file : String) : String :=
  replaceFirst (parseName file) ".endpoint"

/-- See `endpointFileName`; resolves the route name for a descriptor. -/
def resolveEndpointName (e : Endpoint) (file : String) : String :=
  match e.name with
  | some s => if s = "" then endpointFileName file else s
  | none => endpointFileName file

/-- The cors layers `buildEndpoint` adds (lines 192–197): global flag first,
else the per-endpoint flag. -/
def corsLayersOf (globalCors : Bool) (e : Endpoint) : List Layer :=
  if globalCors then [Layer.cors]
  else if (e.options.map EndpointOptions.enableCors).getD false then [Layer.cors]
  else []

/-- The file-upload layers `buildEndpoint` adds (lines 199–202). -/
def uploadLayersOf (e : Endpoint) : List Layer :=
  if (e.options.map EndpointOptions.enableFileUpload).getD false then [Layer.fileUpload]
  else []

/-- `endpoint.options?.middlewares ?? []` (lines 206–222). -/
def middlewaresOf (e : Endpoint) : List Middleware :=
  (e.options.bind EndpointOptions.middlewares).getD []

/-- The error message of the `default` branch of the request-type switch
(lines 226–231). -/
def unsupportedRequestTypeMsg : String :=
  "A unsupported RequestType was defined for a Endpoint.\n\n          Please make sure that the Endpoint file exports a RequestType\n          using the constants in src/system/constants/requests.ts.\n\n          **This value is required to add the Endpoint to the API**"

/-- `buildEndpoint` (lines 177–237): resolve the route name, conditionally
register blanket cors / file-upload middleware on the router, then dispatch on
the request type to register the route at `/groupName/name` with the
middleware chain followed by the handler.  The `default` branch throws after
the `router.use` mutations, so the error carries the mutated router. -/
def buildEndpoint (globalCors : Bool) (file groupName : String)
    (router : RouterState) (e : Endpoint) : Except (String × RouterState) RouterState :=
  let name := resolveEndpointName e file
  let router2 := router ++ corsLayersOf globalCors e ++ uploadLayersOf e
  match dispatchMethod e.requestType with
  | some m =>
      Except.ok (router2 ++
        [Layer.route m ("/" ++ groupName ++ "/" ++ name) (middlewaresOf e) e.handler])
  | none => Except.error (unsupportedRequestTypeMsg, router2)

/-- The message of the error rethrown by the per-file `catch` in
`buildRestfulApi` (lines 152–156); it names the offending file and group and
replaces the inner error. -/
def restFailMsg (file groupName : String) : String :=
  "Restful Endpoints - Failed to add the endpoint defined in " ++ file ++
    " to the " ++ groupName ++ " Api."

/-- The mutable state of one `buildRestfulApi` call:
  * `exports`: the caller-supplied namespace (`this.exports`);
  * `app`: the router ids mounted on the single shared express application, in
    `app.use` order (with repetitions, one per processed file);
  * `groupRouters`: the `Map` from group name to router id;
  * `routers`: the heap of router objects, indexed by router id. -/
structure RestState where
  exports : Namespace
  app : List Nat
  groupRouters : List (String × Nat)
  routers : List RouterState
deriving DecidableEq, Repr

/-- Lines 142–148: look up the group's router in `groupRouters`, creating and
registering a fresh empty router when there is none.  Returns the router id
and the updated state. -/
def ensureRouter (s : RestState) (groupName : String) : Nat × RestState :=
  match getKey s.groupRouters groupName with
  | some rid => (rid, s)
  | none =>
      (s.routers.length,
        { s with
            groupRouters := setKey s.groupRouters groupName s.routers.length,
            routers := s.routers ++ [[]] })

/-- One iteration of the `apiFiles.forEach` body of `buildRestfulApi`
(lines 133–164): group-key computation, router lookup/creation, `buildEndpoint`
in a try/catch that rethrows with the file and group named (router mutations
before the throw persist, the mount and publish steps do not run), then
`app.use('/', router)` and publication of `functions.https.onRequest(app)`
under the `api` key of `exports[groupName]`. -/
def restStep (globalCors groupByFolder : Bool) (s : RestState)
    (f : String × Endpoint) : Except (String × RestState) RestState :=
  let groupName := groupNameRest groupByFolder f.1
  let p := ensureRouter s groupName
  match buildEndpoint globalCors f.1 groupName ((p.2.routers.get? p.1).getD []) f.2 with
  | Except.error err =>
      Except.error (restFailMsg f.1 groupName,
        { p.2 with routers := p.2.routers.set p.1 err.2 })
  | Except.ok r' =>
      Except.ok
        { p.2 with
            routers := p.2.routers.set p.1 r',
            app := p.2.app ++ [p.1],
            exports := setKey p.2.exports groupName
              (spread ((getKey p.2.exports groupName).getD []) [("api", Value.api)]) }

/-- The `apiFiles.forEach` loop of `buildRestfulApi`; a thrown error aborts the
loop and carries the state at throw time. -/
def runRest (globalCors groupByFolder : Bool) (files : List (String × Endpoint))
    (s : RestState) : Except (String × RestState) RestState :=
  match files with
  | [] => Except.ok s
  | f :: rest =>
      match restStep globalCors groupByFolder s f with
      | Except.error err => Except.error err
      | Except.ok s' => runRest globalCors groupByFolder rest s'

/-- `buildRestfulApi` (lines 121–167): fresh shared application, fresh router
map, then the per-file loop over the discovered endpoint files (each paired
with its `require`d default-export descriptor). -/
def buildRestfulApi (globalCors groupByFolder : Bool)
    (files : List (String × Endpoint)) (exports : Namespace) :
    Except (String × RestState) RestState :=
  runRest globalCors groupByFolder files
    { exports := exports, app := [], groupRouters := [], routers := [] }

/-- The layers of a router that are routes (not blanket middleware). -/
def routeLayers (r : RouterState) : List Layer :=
  r.filter fun l =>
    match l with
    | Layer.route _ _ _ _ => true
    | _ => false

/-- The layers of the router currently associated with group `g` (empty when
the group has no router yet). -/
def currentRouter (s : RestState) (g : String) : RouterState :=
  match getKey s.groupRouters g with
  | some rid => (s.routers.get? rid).getD []
  | none => []

/-- The routes currently registered on the router of group `g` (empty when the
group has no router). -/
def groupRoutes (s : RestState) (g : String) : List Layer :=
  routeLayers (currentRouter s g)

/-- The single route layer `buildEndpoint` registers for a discovered file
with a supported request type (empty for an unsupported type). -/
def expectedRoutes (groupByFolder : Bool) (f : String × Endpoint) : List Layer :=
  match dispatchMethod f.2.requestType with
  | some m =>
      [Layer.route m
        ("/" ++ groupNameRest groupByFolder f.1 ++ "/" ++ resolveEndpointName f.2 f.1)
        (middlewaresOf f.2) f.2.handler]
  | none => []

/-- A layer is reachable through the published `api` adapters: every published
adapter wraps `functions.https.onRequest(app)` for the one shared application,
so a layer is exposed iff it sits on some router mounted on that app. -/
def routeExposed (s : RestState) (l : Layer) : Prop :=
  ∃ rid ∈ s.app, l ∈ (s.routers.get? rid).getD []

instance (s : RestState) (l : Layer) : Decidable (routeExposed s l) := by
  unfold routeExposed
  infer_instance

/-- Modelled from the spec: the `ParserOptions` shape (spec §6 configuration
surface); the type lives in `src/models.ts`, which is not part of the sources.
Absent fields take the constructor's defaults (lines 53–56). -/
structure ParserOptions where
  enableCors : Option Bool := none
  groupByFolder : Option Bool := none
  buildReactive : Option Bool := none
  buildEndpoints : Option Bool := none
deriving DecidableEq, Repr

/-- The `FunctionParser` constructor (lines 43–65): require a non-empty
`rootPath`, apply option defaults, run the reactive pass and then the endpoint
pass as enabled.  Discovery is modelled by the two file lists; the result is
the final `exports` namespace (or the thrown error's message). -/
def functionParser (rootPath : String) (exports : Namespace) (options : ParserOptions)
    (env : Option String) (functionFiles : List (String × JSObject))
    (endpointFiles : List (String × Endpoint)) : Except String Namespace :=
  if rootPath = "" then Except.error "rootPath is required to find the functions."
  else
    let enableCors := options.enableCors.getD false
    let groupByFolder := options.groupByFolder.getD true
    let doReactive := options.buildReactive.getD true
    let doEndpoints := options.buildEndpoints.getD true
    let ns1 :=
      if doReactive then buildReactiveFunctions env groupByFolder functionFiles exports
      else exports
    if doEndpoints then
      match buildRestfulApi enableCors groupByFolder endpointFiles ns1 with
      | Except.error err => Except.error err.1
      | Except.ok s => Except.ok s.exports
    else Except.ok ns1

/-- The group object currently published at key `g` of the namespace (the
empty object when the key is absent, as under JS spread of `undefined`). -/
def groupObj (ns : Namespace) (g : String) : JSObject :=
  (getKey ns g).getD []

/-- Well-formedness of the `buildRestfulApi` state: every router id in the
group map addresses the heap, and distinct groups hold distinct routers (JS
object identity of the `Map` values). -/
def RestWF (s : RestState) : Prop :=
  (∀ g rid, getKey s.groupRouters g = some rid → rid < s.routers.length) ∧
  (∀ g1 g2 rid, getKey s.groupRouters g1 = some rid →
    getKey s.groupRouters g2 = some rid → g1 = g2)

/-- Between loop iterations, every router in the heap has been mounted on the
shared application by `app.use('/', router)`. -/
def Mounted (s : RestState) : Prop :=
  ∀ rid, rid < s.routers.length → rid ∈ s.app

/-- A cors middleware layer sits strictly before the layer `l` on the router,
so express runs it on every request that reaches `l`. -/
def corsGuards (r : RouterState) (l : Layer) : Prop :=
  ∃ i j, i < j ∧ r.get? i = some Layer.cors ∧ r.get? j = some l

/-! ### Association-list lemmas -/

/-- `Option` alternative with the first operand preferred (JS `??` on reads
through object layers). -/
def orE {α : Type} (x y : Option α) : Option α :=
  match x with
  | some v => some v
  | none => y

theorem orE_none_left {α : Type} (y : Option α) : orE none y = y := rfl

theorem orE_none_right {α : Type} (x : Option α) : orE x none = x := by
  cases x <;> rfl

theorem orE_assoc {α : Type} (x y z : Option α) :
    orE (orE x y) z = orE x (orE y z) := by
  cases x <;> rfl

theorem getKey_setKey_self {α : Type} (o : List (String × α)) (k : String) (v : α) :
    getKey (setKey o k v) k = some v := by
  induction o with
  | nil => simp [setKey, getKey]
  | cons p rest ih =>
      by_cases h : p.1 = k
      · simp [setKey, getKey, h]
      · simp [setKey, getKey, h, ih]

theorem getKey_setKey_ne {α : Type} (o : List (String × α)) (k k' : String) (v : α)
    (h : k' ≠ k) : getKey (setKey o k v) k' = getKey o k' := by
  induction o with
  | nil =>
      have hne : ¬k = k' := fun hh => h hh.symm
      simp [setKey, getKey, hne]
  | cons p rest ih =>
      by_cases hp : p.1 = k
      · subst hp
        have hne : ¬p.1 = k' := fun hh => h hh.symm
        simp [setKey, getKey, hne]
      · simp only [setKey, hp, if_false, getKey]
        by_cases hp' : p.1 = k'
        · simp [hp']
        · simp [hp', ih]

theorem getKey_setKey {α : Type} (o : List (String × α)) (k k' : String) (v : α) :
    getKey (setKey o k v) k' = if k = k' then some v else getKey o k' := by
  by_cases h : k = k'
  · subst h
    simp [getKey_setKey_self]
  · simp [h, getKey_setKey_ne o k k' v (fun hh => h hh.symm)]

theorem getKey_append {α : Type} (a b : List (String × α)) (k : String) :
    getKey (a ++ b) k = orE (getKey a k) (getKey b k) := by
  induction a with
  | nil => simp [getKey, orE]
  | cons p rest ih =>
      by_cases h : p.1 = k
      · simp [getKey, h, orE]
      · simp [getKey, h, ih]

theorem getKey_eq_none_iff {α : Type} (o : List (String × α)) (k : String) :
    getKey o k = none ↔ ∀ p ∈ o, p.1 ≠ k := by
  induction o with
  | nil => simp [getKey]
  | cons p rest ih =>
      by_cases h : p.1 = k
      · simp [getKey, h]
      · simp [getKey, h, ih]

theorem getKey_isSome_iff {α : Type} (o : List (String × α)) (k : String) :
    (getKey o k).isSome ↔ ∃ p ∈ o, p.1 = k := by
  induction o with
  | nil => simp [getKey]
  | cons p rest ih =>
      by_cases h : p.1 = k
      · simp [getKey, h]
      · simp [getKey, h, ih]

theorem spread_getKey (a b : JSObject) (k : String) :
    getKey (spread a b) k = orE (getKey b.reverse k) (getKey a k) := by
  induction b generalizing a with
  | nil => simp [spread, getKey, orE]
  | cons p rest ih =>
      have hstep : spread a (p :: rest) = spread (setKey a p.1 p.2) rest := rfl
      rw [hstep, ih, List.reverse_cons, getKey_append, orE_assoc]
      congr 1
      rw [getKey_setKey]
      by_cases h : p.1 = k
      · simp [getKey, h, orE]
      · simp [getKey, h, orE]

theorem getKey_reverse_of_nodup {α : Type} (o : List (String × α)) (k : String)
    (h : (o.map Prod.fst).Nodup) : getKey o.reverse k = getKey o k := by
  induction o with
  | nil => rfl
  | cons p rest ih =>
      simp only [List.map_cons, List.nodup_cons] at h
      rw [List.reverse_cons, getKey_append, ih h.2]
      by_cases hk : p.1 = k
      · have hnone : getKey rest k = none := by
          rw [getKey_eq_none_iff]
          intro q hq hqk
          apply h.1
          rw [hk, ← hqk]
          exact List.mem_map_of_mem Prod.fst hq
        simp [getKey, hk, hnone, orE]
      · simp [getKey, hk, orE_none_right]

theorem spread_getKey_of_none (a b : JSObject) (k : String) (h : getKey b k = none) :
    getKey (spread a b) k = getKey a k := by
  rw [spread_getKey]
  have hrev : getKey b.reverse k = none := by
    rw [getKey_eq_none_iff] at h ⊢
    intro p hp
    exact h p (List.mem_reverse.mp hp)
  rw [hrev, orE_none_left]

theorem spread_getKey_isSome (a b : JSObject) (k : String)
    (h : (getKey b k).isSome) : (getKey (spread a b) k).isSome := by
  rw [spread_getKey]
  have : ∃ p ∈ b.reverse, p.1 = k := by
    obtain ⟨p, hp, hpk⟩ := (getKey_isSome_iff b k).mp h
    exact ⟨p, List.mem_reverse.mpr hp, hpk⟩
  obtain ⟨v, hv⟩ := Option.isSome_iff_exists.mp ((getKey_isSome_iff b.reverse k).mpr this)
  simp [hv, orE]

theorem spread_getKey_of_nodup (a b : JSObject) (k : String) (v : Value)
    (hnd : (b.map Prod.fst).Nodup) (h : getKey b k = some v) :
    getKey (spread a b) k = some v := by
  rw [spread_getKey, getKey_reverse_of_nodup b k hnd, h]
  rfl

theorem spread_getKey_mono (a b : JSObject) (k : String)
    (h : (getKey a k).isSome) : (getKey (spread a b) k).isSome := by
  rw [spread_getKey]
  cases hb : getKey b.reverse k with
  | none => simpa [orE] using h
  | some v => simp [orE]

/-! ### Group-key computation -/

theorem jsStringAt_length_sub (l : List String) (k : Nat) :
    jsStringAt l ((l.length : Int) - ((k : Int) + 1)) = l.reverse.get? k := by
  by_cases h : k < l.length
  · have h0 : ¬((l.length : Int) - ((k : Int) + 1) < 0) := by omega
    have htn : ((l.length : Int) - ((k : Int) + 1)).toNat = l.length - 1 - k := by omega
    rw [jsStringAt, if_neg h0, htn, List.get?_eq_getElem?, List.get?_eq_getElem?,
      List.getElem?_reverse h]
  · have h0 : (l.length : Int) - ((k : Int) + 1) < 0 := by omega
    rw [jsStringAt, if_pos h0, List.get?_eq_getElem?]
    rw [eq_comm, List.getElem?_eq_none_iff]
    simp only [List.length_reverse]
    omega

/-! ### Reactive-pass lemmas -/

theorem reactiveStep_getKey_other (env : Option String) (groupByFolder : Bool)
    (ns : Namespace) (f : String × JSObject) (g : String)
    (h : groupNameReactive groupByFolder f.1 ≠ g) :
    getKey (reactiveStep env groupByFolder ns f) g = getKey ns g := by
  unfold reactiveStep
  by_cases hsel : selectedFn env (functionName f.1) = true
  · simp only [hsel, if_true]
    by_cases habs : (getKey ns (groupNameReactive groupByFolder f.1)).isNone
    · simp only [habs, if_true]
      rw [getKey_setKey_ne _ _ _ _ (fun hh => h hh.symm),
        getKey_setKey_ne _ _ _ _ (fun hh => h hh.symm)]
    · simp only [Bool.not_eq_true] at habs
      simp only [habs, Bool.false_eq_true, if_false]
      rw [getKey_setKey_ne _ _ _ _ (fun hh => h hh.symm)]
  · simp only [Bool.not_eq_true] at hsel
    simp [hsel]

theorem reactiveStep_groupObj_self (env : Option String) (groupByFolder : Bool)
    (ns : Namespace) (f : String × JSObject)
    (hsel : selectedFn env (functionName f.1) = true) :
    groupObj (reactiveStep env groupByFolder ns f) (groupNameReactive groupByFolder f.1) =
      spread (groupObj ns (groupNameReactive groupByFolder f.1)) f.2 := by
  unfold reactiveStep groupObj
  simp only [hsel, if_true]
  by_cases habs : (getKey ns (groupNameReactive groupByFolder f.1)).isNone
  · simp only [habs, if_true, getKey_setKey_self, Option.getD_some]
    rw [Option.isNone_iff_eq_none] at habs
    simp [habs]
  · simp [habs, getKey_setKey_self]

theorem reactiveStep_member_mono (env : Option String) (groupByFolder : Bool)
    (ns : Namespace) (f : String × JSObject) (g m : String)
    (h : (getKey (groupObj ns g) m).isSome) :
    (getKey (groupObj (reactiveStep env groupByFolder ns f) g) m).isSome := by
  by_cases hg : groupNameReactive groupByFolder f.1 = g
  · by_cases hsel : selectedFn env (functionName f.1) = true
    · subst hg
      rw [reactiveStep_groupObj_self env groupByFolder ns f hsel]
      exact spread_getKey_mono _ _ _ h
    · simp only [Bool.not_eq_true] at hsel
      unfold reactiveStep
      simp [hsel, h]
  · unfold groupObj
    rw [reactiveStep_getKey_other env groupByFolder ns f g hg]
    exact h

theorem buildReactive_member_mono (env : Option String) (groupByFolder : Bool)
    (files : List (String × JSObject)) (ns : Namespace) (g m : String)
    (h : (getKey (groupObj ns g) m).isSome) :
    (getKey (groupObj (buildReactiveFunctions env groupByFolder files ns) g) m).isSome := by
  induction files generalizing ns with
  | nil => exact h
  | cons f rest ih =>
      exact ih _ (reactiveStep_member_mono env groupByFolder ns f g m h)

theorem reactiveStep_member_frame (env : Option String) (groupByFolder : Bool)
    (ns : Namespace) (f : String × JSObject) (g n : String)
    (h : selectedFn env (functionName f.1) = true →
      groupNameReactive groupByFolder f.1 = g → getKey f.2 n = none) :
    getKey (groupObj (reactiveStep env groupByFolder ns f) g) n =
      getKey (groupObj ns g) n := by
  by_cases hg : groupNameReactive groupByFolder f.1 = g
  · by_cases hsel : selectedFn env (functionName f.1) = true
    · subst hg
      rw [reactiveStep_groupObj_self env groupByFolder ns f hsel]
      exact spread_getKey_of_none _ _ _ (h hsel rfl)
    · simp only [Bool.not_eq_true] at hsel
      unfold reactiveStep
      simp [hsel]
  · unfold groupObj
    rw [reactiveStep_getKey_other env groupByFolder ns f g hg]

theorem buildReactive_member_frame (env : Option String) (groupByFolder : Bool)
    (files : List (String × JSObject)) (ns : Namespace) (g n : String)
    (h : ∀ f ∈ files, selectedFn env (functionName f.1) = true →
      groupNameReactive groupByFolder f.1 = g → getKey f.2 n = none) :
    getKey (groupObj (buildReactiveFunctions env groupByFolder files ns) g) n =
      getKey (groupObj ns g) n := by
  induction files generalizing ns with
  | nil => rfl
  | cons f rest ih =>
      have hstep := reactiveStep_member_frame env groupByFolder ns f g n
        (h f (List.mem_cons_self f rest))
      calc getKey (groupObj (buildReactiveFunctions env groupByFolder (f :: rest) ns) g) n
          = getKey (groupObj (buildReactiveFunctions env groupByFolder rest
              (reactiveStep env groupByFolder ns f)) g) n := rfl
        _ = getKey (groupObj (reactiveStep env groupByFolder ns f) g) n :=
              ih _ (fun f' hf' => h f' (List.mem_cons_of_mem f hf'))
        _ = getKey (groupObj ns g) n := hstep

theorem buildReactive_getKey_other (env : Option String) (groupByFolder : Bool)
    (files : List (String × JSObject)) (ns : Namespace) (g : String)
    (h : ∀ f ∈ files, groupNameReactive groupByFolder f.1 ≠ g) :
    getKey (buildReactiveFunctions env groupByFolder files ns) g = getKey ns g := by
  induction files generalizing ns with
  | nil => rfl
  | cons f rest ih =>
      calc getKey (buildReactiveFunctions env groupByFolder (f :: rest) ns) g
          = getKey (buildReactiveFunctions env groupByFolder rest
              (reactiveStep env groupByFolder ns f)) g := rfl
        _ = getKey (reactiveStep env groupByFolder ns f) g :=
              ih _ (fun f' hf' => h f' (List.mem_cons_of_mem f hf'))
        _ = getKey ns g :=
              reactiveStep_getKey_other env groupByFolder ns f g
                (h f (List.mem_cons_self f rest))

/-! ### List-indexing helper lemmas -/

theorem get?_append_left {α : Type} (l1 l2 : List α) (i : Nat) (h : i < l1.length) :
    (l1 ++ l2).get? i = l1.get? i := by
  rw [List.get?_eq_getElem?, List.get?_eq_getElem?, List.getElem?_append, if_pos h]

theorem get?_concat_length {α : Type} (l : List α) (a : α) :
    (l ++ [a]).get? l.length = some a := by
  rw [List.get?_eq_getElem?, List.getElem?_append_right (by omega)]
  simp

theorem get?_set_self {α : Type} (l : List α) (i : Nat) (a : α) (h : i < l.length) :
    (l.set i a).get? i = some a := by
  rw [List.get?_eq_getElem?, List.getElem?_set_self', List.getElem?_eq_getElem h]
  rfl

theorem get?_set_ne {α : Type} (l : List α) (i j : Nat) (a : α) (h : i ≠ j) :
    (l.set i a).get? j = l.get? j := by
  rw [List.get?_eq_getElem?, List.get?_eq_getElem?, List.getElem?_set_ne h]

/-! ### Endpoint-pass state lemmas -/

theorem routeLayers_append (a b : RouterState) :
    routeLayers (a ++ b) = routeLayers a ++ routeLayers b := by
  simp [routeLayers]

theorem routeLayers_cors (gc : Bool) (e : Endpoint) :
    routeLayers (corsLayersOf gc e) = [] := by
  unfold corsLayersOf
  by_cases h1 : gc
  · simp [h1, routeLayers, List.filter]
  · by_cases h2 : (e.options.map EndpointOptions.enableCors).getD false
    · simp [h1, h2, routeLayers, List.filter]
    · simp [h1, h2, routeLayers, List.filter]

theorem routeLayers_upload (e : Endpoint) :
    routeLayers (uploadLayersOf e) = [] := by
  unfold uploadLayersOf
  by_cases h : (e.options.map EndpointOptions.enableFileUpload).getD false
  · simp [h, routeLayers, List.filter]
  · simp [h, routeLayers, List.filter]

theorem routeLayers_single_route (m : Method) (p : String) (mws : List Middleware)
    (hd : Handler) :
    routeLayers [Layer.route m p mws hd] = [Layer.route m p mws hd] := by
  simp [routeLayers, List.filter]

theorem ensureRouter_spec (s : RestState) (g : String) (rid1 : Nat) (s1 : RestState)
    (hwf : RestWF s) (hp : ensureRouter s g = (rid1, s1)) :
    RestWF s1 ∧
    getKey s1.groupRouters g = some rid1 ∧
    rid1 < s1.routers.length ∧
    (s1.routers.get? rid1).getD [] = currentRouter s g ∧
    s1.exports = s.exports ∧
    s1.app = s.app ∧
    (∀ g2, g2 ≠ g → getKey s1.groupRouters g2 = getKey s.groupRouters g2) ∧
    (∀ rid2, rid2 < s.routers.length → s1.routers.get? rid2 = s.routers.get? rid2) ∧
    s.routers.length ≤ s1.routers.length ∧
    s1.routers.length ≤ s.routers.length + 1 ∧
    (∀ g2 rid2, g2 ≠ g → getKey s.groupRouters g2 = some rid2 → rid2 ≠ rid1) ∧
    (∀ g2 rid2, getKey s.groupRouters g2 = some rid2 → getKey s1.groupRouters g2 = some rid2) ∧
    (∀ rid2, rid2 < s1.routers.length → rid2 < s.routers.length ∨ rid2 = rid1) := by
  unfold ensureRouter at hp
  cases hfound : getKey s.groupRouters g with
  | some rid0 =>
      rw [hfound] at hp
      injection hp with h1 h2
      subst h1
      subst h2
      refine ⟨hwf, hfound, hwf.1 g _ hfound, ?_, rfl, rfl, fun g2 _ => rfl,
        fun rid2 _ => rfl, le_refl _, Nat.le_succ _, ?_, fun g2 rid2 hg2 => hg2,
        fun rid2 hlt => Or.inl hlt⟩
      · unfold currentRouter
        rw [hfound]
      · intro g2 rid2 hne hg2 heq
        subst heq
        exact hne (hwf.2 g2 g rid2 hg2 hfound)
  | none =>
      rw [hfound] at hp
      injection hp with h1 h2
      subst h1
      subst h2
      dsimp only
      have hlen : (s.routers ++ [[]] : List RouterState).length = s.routers.length + 1 := by
        simp
      refine ⟨⟨?_, ?_⟩, ?_, ?_, ?_, rfl, rfl, ?_, ?_, ?_, ?_, ?_, ?_, ?_⟩
      · intro g2 rid2 hg2
        rw [getKey_setKey] at hg2
        rw [hlen]
        by_cases hgg : g = g2
        · rw [if_pos hgg] at hg2
          injection hg2 with hh
          omega
        · rw [if_neg hgg] at hg2
          have := hwf.1 g2 rid2 hg2
          omega
      · intro ga gb rid2 hg1 hg2
        rw [getKey_setKey] at hg1 hg2
        by_cases ha : g = ga <;> by_cases hb : g = gb
        · rw [← ha, ← hb]
        · rw [if_pos ha] at hg1
          rw [if_neg hb] at hg2
          have hlt := hwf.1 gb rid2 hg2
          injection hg1 with hh
          omega
        · rw [if_neg ha] at hg1
          rw [if_pos hb] at hg2
          have hlt := hwf.1 ga rid2 hg1
          injection hg2 with hh
          omega
        · rw [if_neg ha] at hg1
          rw [if_neg hb] at hg2
          exact hwf.2 ga gb rid2 hg1 hg2
      · exact getKey_setKey_self s.groupRouters g s.routers.length
      · rw [hlen]
        omega
      · rw [get?_concat_length]
        unfold currentRouter
        rw [hfound]
        rfl
      · intro g2 hne
        exact getKey_setKey_ne _ _ _ _ hne
      · intro rid2 hlt
        exact get?_append_left _ _ _ hlt
      · rw [hlen]
        omega
      · rw [hlen]
      · intro g2 rid2 _ hg2 heq
        have := hwf.1 g2 rid2 hg2
        omega
      · intro g2 rid2 hg2
        have hne : g2 ≠ g := by
          intro heq
          rw [heq, hfound] at hg2
          exact Option.noConfusion hg2
        rw [getKey_setKey_ne _ _ _ _ hne]
        exact hg2
      · intro rid2 hlt
        rw [hlen] at hlt
        omega

theorem restStep_ok_spec (gc gb : Bool) (s s' : RestState) (f : String × Endpoint)
    (hwf : RestWF s) (h : restStep gc gb s f = Except.ok s') :
    ∃ rid m,
      dispatchMethod f.2.requestType = some m ∧
      getKey s'.groupRouters (groupNameRest gb f.1) = some rid ∧
      rid < s'.routers.length ∧
      s'.routers.get? rid = some (currentRouter s (groupNameRest gb f.1) ++
        corsLayersOf gc f.2 ++ uploadLayersOf f.2 ++
        [Layer.route m ("/" ++ groupNameRest gb f.1 ++ "/" ++ resolveEndpointName f.2 f.1)
          (middlewaresOf f.2) f.2.handler]) ∧
      (∀ g2, g2 ≠ groupNameRest gb f.1 → getKey s'.groupRouters g2 = getKey s.groupRouters g2) ∧
      (∀ g2 rid2, g2 ≠ groupNameRest gb f.1 → getKey s.groupRouters g2 = some rid2 →
        s'.routers.get? rid2 = s.routers.get? rid2) ∧
      (∀ g2 rid2, getKey s.groupRouters g2 = some rid2 → getKey s'.groupRouters g2 = some rid2) ∧
      (∀ rid2 r, s.routers.get? rid2 = some r → ∃ ext, s'.routers.get? rid2 = some (r ++ ext)) ∧
      s'.app = s.app ++ [rid] ∧
      s'.exports = setKey s.exports (groupNameRest gb f.1)
        (spread (groupObj s.exports (groupNameRest gb f.1)) [("api", Value.api)]) ∧
      s.routers.length ≤ s'.routers.length ∧
      (∀ rid2, rid2 < s'.routers.length → rid2 < s.routers.length ∨ rid2 = rid) ∧
      RestWF s' := by
  rcases hp : ensureRouter s (groupNameRest gb f.1) with ⟨rid1, s1⟩
  obtain ⟨hwf1, hlook, hlt, hcur, hexp, happ, hgframe, hrframe, hle, hle1, hfreshne,
    hpres, hsplit⟩ := ensureRouter_spec s (groupNameRest gb f.1) rid1 s1 hwf hp
  simp only [restStep, hp] at h
  rw [hcur] at h
  simp only [buildEndpoint] at h
  cases hd : dispatchMethod f.2.requestType with
  | none =>
      rw [hd] at h
      exact Except.noConfusion h
  | some m =>
      rw [hd] at h
      dsimp only at h
      injection h with h2
      subst h2
      refine ⟨rid1, m, rfl, hlook, ?_, ?_, hgframe, ?_, hpres, ?_, ?_, ?_, ?_, ?_, ?_⟩
      · dsimp only
        rw [List.length_set]
        exact hlt
      · dsimp only
        exact get?_set_self _ _ _ hlt
      · intro g2 rid2 hne hg2
        dsimp only
        have hne2 : rid2 ≠ rid1 := hfreshne g2 rid2 hne hg2
        rw [get?_set_ne _ _ _ _ (fun hh => hne2 hh.symm)]
        exact hrframe rid2 (hwf.1 g2 rid2 hg2)
      · intro rid2 r hr2
        dsimp only
        obtain ⟨hlt2, _⟩ := List.get?_eq_some.mp hr2
        by_cases hrr : rid2 = rid1
        · subst hrr
          have h1 : s1.routers.get? rid2 = s.routers.get? rid2 := hrframe rid2 hlt2
          have h2 : (s1.routers.get? rid2).getD [] =
              currentRouter s (groupNameRest gb f.1) := hcur
          rw [h1, hr2] at h2
          simp only [Option.getD_some] at h2
          refine ⟨corsLayersOf gc f.2 ++ uploadLayersOf f.2 ++
            [Layer.route m ("/" ++ groupNameRest gb f.1 ++ "/" ++
              resolveEndpointName f.2 f.1) (middlewaresOf f.2) f.2.handler], ?_⟩
          rw [get?_set_self _ _ _ hlt, h2]
          simp [List.append_assoc]
        · refine ⟨[], ?_⟩
          rw [List.append_nil, get?_set_ne _ _ _ _ (fun hh => hrr hh.symm),
            hrframe rid2 hlt2]
          exact hr2
      · dsimp only
        rw [happ]
      · dsimp only
        rw [hexp]
        rfl
      · dsimp only
        rw [List.length_set]
        exact hle
      · intro rid2 hlt2
        dsimp only at hlt2
        rw [List.length_set] at hlt2
        exact hsplit rid2 hlt2
      · constructor
        · intro g2 rid2 hg2
          dsimp only at hg2 ⊢
          rw [List.length_set]
          exact hwf1.1 g2 rid2 hg2
        · intro ga gb2 rid2 hg1 hg2
          dsimp only at hg1 hg2
          exact hwf1.2 ga gb2 rid2 hg1 hg2

theorem restStep_err_spec (gc gb : Bool) (s s' : RestState) (f : String × Endpoint)
    (msg : String) (hwf : RestWF s) (h : restStep gc gb s f = Except.error (msg, s')) :
    msg = restFailMsg f.1 (groupNameRest gb f.1) ∧
    dispatchMethod f.2.requestType = none ∧
    s'.exports = s.exports ∧
    s'.app = s.app ∧
    (∀ g2, groupRoutes s' g2 = groupRoutes s g2) := by
  rcases hp : ensureRouter s (groupNameRest gb f.1) with ⟨rid1, s1⟩
  obtain ⟨hwf1, hlook, hlt, hcur, hexp, happ, hgframe, hrframe, hle, hle1, hfreshne,
    hpres, hsplit⟩ := ensureRouter_spec s (groupNameRest gb f.1) rid1 s1 hwf hp
  simp only [restStep, hp] at h
  rw [hcur] at h
  simp only [buildEndpoint] at h
  cases hd : dispatchMethod f.2.requestType with
  | some m =>
      rw [hd] at h
      exact Except.noConfusion h
  | none =>
      rw [hd] at h
      dsimp only at h
      injection h with h2
      injection h2 with hmsg hstate
      subst hstate
      refine ⟨hmsg.symm, rfl, hexp, happ, ?_⟩
      intro g2
      by_cases hg : g2 = groupNameRest gb f.1
      · subst hg
        unfold groupRoutes currentRouter
        dsimp only
        rw [hlook]
        dsimp only
        rw [get?_set_self _ _ _ hlt]
        simp only [Option.getD_some]
        rw [routeLayers_append, routeLayers_append, routeLayers_cors, routeLayers_upload,
          List.append_nil, List.append_nil]
      · unfold groupRoutes currentRouter
        dsimp only
        rw [hgframe g2 hg]
        cases hg2 : getKey s.groupRouters g2 with
        | none => rfl
        | some rid2 =>
            dsimp only
            have hne2 : rid2 ≠ rid1 := hfreshne g2 rid2 hg hg2
            rw [get?_set_ne _ _ _ _ (fun hh => hne2 hh.symm), hrframe rid2 (hwf.1 g2 rid2 hg2)]

theorem runRest_append (gc gb : Bool) (A B : List (String × Endpoint)) (s : RestState) :
    runRest gc gb (A ++ B) s =
      match runRest gc gb A s with
      | Except.error err => Except.error err
      | Except.ok s2 => runRest gc gb B s2 := by
  induction A generalizing s with
  | nil => rfl
  | cons f A' ih =>
      cases hstep : restStep gc gb s f with
      | error err => simp only [List.cons_append, runRest, hstep]
      | ok s2 =>
          simp only [List.cons_append, runRest, hstep]
          exact ih s2

theorem runRest_ok_decompose (gc gb : Bool) (A B : List (String × Endpoint))
    (s s' : RestState) (h : runRest gc gb (A ++ B) s = Except.ok s') :
    ∃ sm, runRest gc gb A s = Except.ok sm ∧ runRest gc gb B sm = Except.ok s' := by
  rw [runRest_append] at h
  cases hA : runRest gc gb A s with
  | error err =>
      rw [hA] at h
      exact Except.noConfusion h
  | ok sm =>
      rw [hA] at h
      exact ⟨sm, rfl, h⟩

theorem runRest_extends (gc gb : Bool) (files : List (String × Endpoint))
    (s s' : RestState) (hwf : RestWF s) (h : runRest gc gb files s = Except.ok s') :
    RestWF s' ∧
    (∀ g rid, getKey s.groupRouters g = some rid → getKey s'.groupRouters g = some rid) ∧
    (∀ rid r, s.routers.get? rid = some r → ∃ ext, s'.routers.get? rid = some (r ++ ext)) ∧
    (∀ rid, rid ∈ s.app → rid ∈ s'.app) := by
  induction files generalizing s with
  | nil =>
      unfold runRest at h
      injection h with h2
      subst h2
      exact ⟨hwf, fun g rid hg => hg,
        fun rid r hr => ⟨[], by rw [List.append_nil]; exact hr⟩, fun rid hm => hm⟩
  | cons f rest ih =>
      unfold runRest at h
      cases hstep : restStep gc gb s f with
      | error err =>
          rw [hstep] at h
          exact Except.noConfusion h
      | ok s2 =>
          rw [hstep] at h
          obtain ⟨rid, m, _, _, _, _, _, _, hpres, hext, happ, _, _, _, hwf2⟩ :=
            restStep_ok_spec gc gb s s2 f hwf hstep
          obtain ⟨hwf', hpres', hext', happ'⟩ := ih s2 hwf2 h
          refine ⟨hwf', fun g rid2 hg => hpres' g rid2 (hpres g rid2 hg), ?_, ?_⟩
          · intro rid2 r hr
            obtain ⟨ext1, h1⟩ := hext rid2 r hr
            obtain ⟨ext2, h2⟩ := hext' rid2 (r ++ ext1) h1
            exact ⟨ext1 ++ ext2, by rw [← List.append_assoc]; exact h2⟩
          · intro rid2 hm
            apply happ'
            rw [happ]
            exact List.mem_append_left _ hm

theorem restStep_mounted (gc gb : Bool) (s s' : RestState) (f : String × Endpoint)
    (hwf : RestWF s) (h : restStep gc gb s f = Except.ok s') (hm : Mounted s) :
    Mounted s' := by
  obtain ⟨rid, m, _, _, _, _, _, _, _, _, happ, _, _, hsplit, _⟩ :=
    restStep_ok_spec gc gb s s' f hwf h
  intro rid2 hlt
  rcases hsplit rid2 hlt with hlt2 | heq
  · rw [happ]
    exact List.mem_append_left _ (hm rid2 hlt2)
  · rw [happ, heq]
    exact List.mem_append_right _ (List.mem_singleton_self rid)

theorem runRest_mounted (gc gb : Bool) (files : List (String × Endpoint))
    (s s' : RestState) (hwf : RestWF s) (h : runRest gc gb files s = Except.ok s')
    (hm : Mounted s) : Mounted s' := by
  induction files generalizing s with
  | nil =>
      unfold runRest at h
      injection h with h2
      subst h2
      exact hm
  | cons f rest ih =>
      unfold runRest at h
      cases hstep : restStep gc gb s f with
      | error err =>
          rw [hstep] at h
          exact Except.noConfusion h
      | ok s2 =>
          rw [hstep] at h
          obtain ⟨_, _, _, _, _, _, _, _, _, _, _, _, _, _, hwf2⟩ :=
            restStep_ok_spec gc gb s s2 f hwf hstep
          exact ih s2 hwf2 h (restStep_mounted gc gb s s2 f hwf hstep hm)

theorem restStep_groupRoutes (gc gb : Bool) (s s' : RestState) (f : String × Endpoint)
    (hwf : RestWF s) (h : restStep gc gb s f = Except.ok s') (g : String) :
    groupRoutes s' g = groupRoutes s g ++
      (if groupNameRest gb f.1 = g then expectedRoutes gb f else []) := by
  obtain ⟨rid, m, hd, hlook2, hltr, hget, hgframe, hrframe, hpres, hext, happ, hexports,
    hlen, hsplit, hwf2⟩ := restStep_ok_spec gc gb s s' f hwf h
  by_cases hg : groupNameRest gb f.1 = g
  · subst hg
    rw [if_pos rfl]
    unfold groupRoutes currentRouter
    rw [hlook2]
    dsimp only
    rw [hget]
    simp only [Option.getD_some]
    rw [routeLayers_append, routeLayers_append, routeLayers_append, routeLayers_cors,
      routeLayers_upload, routeLayers_single_route, List.append_nil, List.append_nil]
    unfold expectedRoutes
    rw [hd]
    rfl
  · rw [if_neg hg, List.append_nil]
    unfold groupRoutes currentRouter
    rw [hgframe g (fun hh => hg hh.symm)]
    cases hg2 : getKey s.groupRouters g with
    | none => rfl
    | some rid2 =>
        dsimp only
        rw [hrframe g rid2 (fun hh => hg hh.symm) hg2]

theorem runRest_groupRoutes (gc gb : Bool) (files : List (String × Endpoint))
    (s s' : RestState) (hwf : RestWF s) (h : runRest gc gb files s = Except.ok s')
    (g : String) :
    groupRoutes s' g = groupRoutes s g ++
      (files.filter (fun f => groupNameRest gb f.1 = g)).flatMap (expectedRoutes gb) := by
  induction files generalizing s with
  | nil =>
      unfold runRest at h
      injection h with h2
      subst h2
      simp
  | cons f rest ih =>
      unfold runRest at h
      cases hstep : restStep gc gb s f with
      | error err =>
          rw [hstep] at h
          exact Except.noConfusion h
      | ok s2 =>
          rw [hstep] at h
          obtain ⟨_, _, _, _, _, _, _, _, _, _, _, _, _, _, hwf2⟩ :=
            restStep_ok_spec gc gb s s2 f hwf hstep
          rw [ih s2 hwf2 h, restStep_groupRoutes gc gb s s2 f hwf hstep g]
          by_cases hg : groupNameRest gb f.1 = g
          · rw [if_pos hg, List.filter_cons_of_pos (by simp [hg]), List.flatMap_cons,
              List.append_assoc]
          · rw [if_neg hg, List.filter_cons_of_neg (by simp [hg]), List.append_nil]

theorem runRest_all_supported (gc gb : Bool) (files : List (String × Endpoint))
    (s s' : RestState) (hwf : RestWF s) (h : runRest gc gb files s = Except.ok s') :
    ∀ f ∈ files, ∃ m, dispatchMethod f.2.requestType = some m := by
  induction files generalizing s with
  | nil =>
      intro f hf
      exact absurd hf (List.not_mem_nil f)
  | cons f0 rest ih =>
      unfold runRest at h
      cases hstep : restStep gc gb s f0 with
      | error err =>
          rw [hstep] at h
          exact Except.noConfusion h
      | ok s2 =>
          rw [hstep] at h
          obtain ⟨rid, m, hd, _⟩ := restStep_ok_spec gc gb s s2 f0 hwf hstep
          obtain ⟨_, _, _, _, _, _, _, _, _, _, _, _, _, _, hwf2⟩ :=
            restStep_ok_spec gc gb s s2 f0 hwf hstep
          intro f hf
          rcases List.mem_cons.mp hf with heq | hmem
          · subst heq
            exact ⟨m, hd⟩
          · exact ih s2 hwf2 h f hmem

theorem restStep_exports_other (gc gb : Bool) (s s' : RestState) (f : String × Endpoint)
    (hwf : RestWF s) (h : restStep gc gb s f = Except.ok s') (k : String)
    (hk : groupNameRest gb f.1 ≠ k) : getKey s'.exports k = getKey s.exports k := by
  obtain ⟨rid, m, _, _, _, _, _, _, _, _, _, hexports, _, _, _⟩ :=
    restStep_ok_spec gc gb s s' f hwf h
  rw [hexports, getKey_setKey_ne _ _ _ _ (fun hh => hk hh.symm)]

theorem runRest_exports_other (gc gb : Bool) (files : List (String × Endpoint))
    (s s' : RestState) (hwf : RestWF s) (h : runRest gc gb files s = Except.ok s')
    (k : String) (hk : ∀ f ∈ files, groupNameRest gb f.1 ≠ k) :
    getKey s'.exports k = getKey s.exports k := by
  induction files generalizing s with
  | nil =>
      unfold runRest at h
      injection h with h2
      subst h2
      rfl
  | cons f rest ih =>
      unfold runRest at h
      cases hstep : restStep gc gb s f with
      | error err =>
          rw [hstep] at h
          exact Except.noConfusion h
      | ok s2 =>
          rw [hstep] at h
          obtain ⟨_, _, _, _, _, _, _, _, _, _, _, _, _, _, hwf2⟩ :=
            restStep_ok_spec gc gb s s2 f hwf hstep
          rw [ih s2 hwf2 h (fun f' hf' => hk f' (List.mem_cons_of_mem f hf')),
            restStep_exports_other gc gb s s2 f hwf hstep k
              (hk f (List.mem_cons_self f rest))]

theorem restStep_member_other (gc gb : Bool) (s s' : RestState) (f : String × Endpoint)
    (hwf : RestWF s) (h : restStep gc gb s f = Except.ok s') (g m : String)
    (hm : m ≠ "api") :
    getKey (groupObj s'.exports g) m = getKey (groupObj s.exports g) m := by
  obtain ⟨rid, m2, _, _, _, _, _, _, _, _, _, hexports, _, _, _⟩ :=
    restStep_ok_spec gc gb s s' f hwf h
  by_cases hg : groupNameRest gb f.1 = g
  · subst hg
    unfold groupObj
    rw [hexports, getKey_setKey_self]
    simp only [Option.getD_some]
    apply spread_getKey_of_none
    have hne : ¬("api" = m) := fun hh => hm hh.symm
    simp [getKey, hne]
  · unfold groupObj
    rw [hexports, getKey_setKey_ne _ _ _ _ (fun hh => hg hh.symm)]

theorem runRest_member_other (gc gb : Bool) (files : List (String × Endpoint))
    (s s' : RestState) (hwf : RestWF s) (h : runRest gc gb files s = Except.ok s')
    (g m : String) (hm : m ≠ "api") :
    getKey (groupObj s'.exports g) m = getKey (groupObj s.exports g) m := by
  induction files generalizing s with
  | nil =>
      unfold runRest at h
      injection h with h2
      subst h2
      rfl
  | cons f rest ih =>
      unfold runRest at h
      cases hstep : restStep gc gb s f with
      | error err =>
          rw [hstep] at h
          exact Except.noConfusion h
      | ok s2 =>
          rw [hstep] at h
          obtain ⟨_, _, _, _, _, _, _, _, _, _, _, _, _, _, hwf2⟩ :=
            restStep_ok_spec gc gb s s2 f hwf hstep
          rw [ih s2 hwf2 h, restStep_member_other gc gb s s2 f hwf hstep g m hm]

theorem restStep_api_self (gc gb : Bool) (s s' : RestState) (f : String × Endpoint)
    (hwf : RestWF s) (h : restStep gc gb s f = Except.ok s') :
    getKey (groupObj s'.exports (groupNameRest gb f.1)) "api" = some Value.api := by
  obtain ⟨rid, m, _, _, _, _, _, _, _, _, _, hexports, _, _, _⟩ :=
    restStep_ok_spec gc gb s s' f hwf h
  unfold groupObj
  rw [hexports, getKey_setKey_self]
  simp only [Option.getD_some]
  rw [spread_getKey]
  rfl

theorem restStep_api_mono (gc gb : Bool) (s s' : RestState) (f : String × Endpoint)
    (hwf : RestWF s) (h : restStep gc gb s f = Except.ok s') (g : String)
    (hapi : getKey (groupObj s.exports g) "api" = some Value.api) :
    getKey (groupObj s'.exports g) "api" = some Value.api := by
  obtain ⟨rid, m, _, _, _, _, _, _, _, _, _, hexports, _, _, _⟩ :=
    restStep_ok_spec gc gb s s' f hwf h
  by_cases hg : groupNameRest gb f.1 = g
  · subst hg
    exact restStep_api_self gc gb s s' f hwf h
  · unfold groupObj
    rw [hexports, getKey_setKey_ne _ _ _ _ (fun hh => hg hh.symm)]
    exact hapi

theorem runRest_api_mono (gc gb : Bool) (files : List (String × Endpoint))
    (s s' : RestState) (hwf : RestWF s) (h : runRest gc gb files s = Except.ok s')
    (g : String) (hapi : getKey (groupObj s.exports g) "api" = some Value.api) :
    getKey (groupObj s'.exports g) "api" = some Value.api := by
  induction files generalizing s with
  | nil =>
      unfold runRest at h
      injection h with h2
      subst h2
      exact hapi
  | cons f rest ih =>
      unfold runRest at h
      cases hstep : restStep gc gb s f with
      | error err =>
          rw [hstep] at h
          exact Except.noConfusion h
      | ok s2 =>
          rw [hstep] at h
          obtain ⟨_, _, _, _, _, _, _, _, _, _, _, _, _, _, hwf2⟩ :=
            restStep_ok_spec gc gb s s2 f hwf hstep
          exact ih s2 hwf2 h (restStep_api_mono gc gb s s2 f hwf hstep g hapi)

theorem runRest_api_present (gc gb : Bool) (files : List (String × Endpoint))
    (s s' : RestState) (hwf : RestWF s) (h : runRest gc gb files s = Except.ok s') :
    ∀ f ∈ files, getKey (groupObj s'.exports (groupNameRest gb f.1)) "api" = some Value.api := by
  induction files generalizing s with
  | nil =>
      intro f hf
      exact absurd hf (List.not_mem_nil f)
  | cons f0 rest ih =>
      unfold runRest at h
      cases hstep : restStep gc gb s f0 with
      | error err =>
          rw [hstep] at h
          exact Except.noConfusion h
      | ok s2 =>
          rw [hstep] at h
          obtain ⟨_, _, _, _, _, _, _, _, _, _, _, _, _, _, hwf2⟩ :=
            restStep_ok_spec gc gb s s2 f0 hwf hstep
          intro f hf
          rcases List.mem_cons.mp hf with heq | hmem
          · subst heq
            exact runRest_api_mono gc gb rest s2 s' hwf2 h _
              (restStep_api_self gc gb s s2 f hwf hstep)
          · exact ih s2 hwf2 h f hmem

theorem buildReactive_append (env : Option String) (gb : Bool)
    (A B : List (String × JSObject)) (ns : Namespace) :
    buildReactiveFunctions env gb (A ++ B) ns =
      buildReactiveFunctions env gb B (buildReactiveFunctions env gb A ns) := by
  unfold buildReactiveFunctions
  rw [List.foldl_append]

theorem corsGuards_extend (r ext : RouterState) (l : Layer) (h : corsGuards r l) :
    corsGuards (r ++ ext) l := by
  obtain ⟨i, j, hij, hi, hj⟩ := h
  obtain ⟨hjlt, _⟩ := List.get?_eq_some.mp hj
  have hilt : i < r.length := lt_trans hij hjlt
  exact ⟨i, j, hij, by rw [get?_append_left _ _ _ hilt]; exact hi,
    by rw [get?_append_left _ _ _ hjlt]; exact hj⟩

theorem restStep_cors_member (gc gb : Bool) (s s' : RestState) (f : String × Endpoint)
    (hwf : RestWF s) (h : restStep gc gb s f = Except.ok s')
    (hcors : corsLayersOf gc f.2 = [Layer.cors]) :
    ∃ rid r, getKey s'.groupRouters (groupNameRest gb f.1) = some rid ∧
      s'.routers.get? rid = some r ∧ Layer.cors ∈ r := by
  obtain ⟨rid, m, _, hlook2, _, hget, _⟩ := restStep_ok_spec gc gb s s' f hwf h
  refine ⟨rid, _, hlook2, hget, ?_⟩
  rw [hcors]
  simp

theorem restStep_cors_position (gc gb : Bool) (s s' : RestState) (f : String × Endpoint)
    (hwf : RestWF s) (h : restStep gc gb s f = Except.ok s')
    (hmem : Layer.cors ∈ currentRouter s (groupNameRest gb f.1)) :
    ∃ rid r, getKey s'.groupRouters (groupNameRest gb f.1) = some rid ∧
      s'.routers.get? rid = some r ∧ ∀ l ∈ expectedRoutes gb f, corsGuards r l := by
  obtain ⟨rid, m, hd, hlook2, _, hget, _⟩ := restStep_ok_spec gc gb s s' f hwf h
  refine ⟨rid, _, hlook2, hget, ?_⟩
  intro l hl
  unfold expectedRoutes at hl
  rw [hd] at hl
  rcases List.mem_singleton.mp hl with rfl
  obtain ⟨i, hi⟩ := List.mem_iff_get?.mp hmem
  obtain ⟨hilt, _⟩ := List.get?_eq_some.mp hi
  refine ⟨i, ((currentRouter s (groupNameRest gb f.1) ++ corsLayersOf gc f.2) ++
    uploadLayersOf f.2).length, ?_, ?_, ?_⟩
  · simp only [List.length_append]
    omega
  · rw [get?_append_left _ _ _ (by simp only [List.length_append]; omega),
      get?_append_left _ _ _ (by simp only [List.length_append]; omega),
      get?_append_left _ _ _ hilt]
    exact hi
  · exact get?_concat_length _ _

theorem restWF_init (ns : Namespace) :
    RestWF { exports := ns, app := [], groupRouters := [], routers := [] } := by
  constructor
  · intro g rid hg
    exact Option.noConfusion hg
  · intro g1 g2 rid hg1 hg2
    exact Option.noConfusion hg1

theorem mounted_init (ns : Namespace) :
    Mounted { exports := ns, app := [], groupRouters := [], routers := [] } := by
  intro rid hlt
  simp at hlt

theorem groupRoutes_init (ns : Namespace) (g : String) :
    groupRoutes { exports := ns, app := [], groupRouters := [], routers := [] } g = [] := rfl

theorem replaceFirstAux_length (pat s : List Char) :
    s.length - pat.length ≤ (replaceFirstAux pat s).length := by
  induction s with
  | nil => simp [replaceFirstAux]
  | cons c cs ih =>
      unfold replaceFirstAux
      by_cases h : pat.isPrefixOf (c :: cs)
      · rw [if_pos h]
        simp [List.length_drop]
      · rw [if_neg h]
        simp only [List.length_cons]
        omega

theorem string_ne_empty_of_length_pos (s : String) (h : 0 < s.length) : s ≠ "" := by
  intro hh
  rw [hh] at h
  exact Nat.lt_irrefl 0 h

theorem string_data_ne_nil (s : String) (h : s ≠ "") : s.data ≠ [] := by
  intro hh
  apply h
  cases s with
  | mk data =>
      simp at hh
      rw [hh]

/-! ### Claim theorems -/

/-- C2: for every discovered file path, the computed group key equals the
second-to-last segment of the file's directory path when `groupByFolder` is
enabled, and the last segment otherwise; an empty or missing selected segment
degrades to the empty string (no error is possible: the computation is total);
and the reactive pass and the endpoint pass compute the same key for the same
path and flag. -/
theorem c2_group_key (gb : Bool) (file : String) :
    groupNameReactive gb file = groupNameRest gb file ∧
    groupNameReactive gb file = specGroupKey gb file := by
  refine ⟨rfl, ?_⟩
  simp only [groupNameReactive, specGroupKey]
  cases gb with
  | false =>
      simp only [Bool.false_eq_true, if_false, List.get?_eq_getElem?]
      have h := jsStringAt_length_sub (splitPath (parseDir file)) 0
      norm_num at h
      rw [h]
      cases (splitPath (parseDir file)).reverse[0]? <;> rfl
  | true =>
      simp only [if_true, List.get?_eq_getElem?]
      have h := jsStringAt_length_sub (splitPath (parseDir file)) 1
      norm_num at h
      rw [h]
      cases (splitPath (parseDir file)).reverse[1]? <;> rfl

/-- C6 counterexample: with the selector environment variable set to the empty
string, a background-function file whose derived logical name is `"bar"`
(which differs from the set value) is still merged, because the JS guard
`!process.env.FUNCTION_NAME` treats a set-but-empty variable as unset.  This
refutes the claim that, whenever the variable is set to some value `s`, a file
is merged only if its derived name equals `s`. -/
theorem c6_counterexample :
    functionName "g/bar.function.js" = "bar" ∧ ("bar" : String) ≠ "" ∧
    buildReactiveFunctions (some "") false [("g/bar.function.js", [("h", Value.fn 0)])] [] =
      [("g", [("h", Value.fn 0)])] := by
  refine ⟨?_, ?_, ?_⟩ <;> decide

/-- C6 amended: when the selector environment variable is set to a non-empty
value `s`, the reactive pass behaves exactly like an unfiltered pass over the
files whose derived logical name equals `s` (merged iff the name matches, all
others skipped); a variable set to the empty string behaves like an unset
variable, merging every discovered file. -/
theorem c6_amended (s : String) (hs : s ≠ "") (gb : Bool)
    (files : List (String × JSObject)) (ns : Namespace) :
    buildReactiveFunctions (some s) gb files ns =
      buildReactiveFunctions none gb
        (files.filter fun f => functionName f.1 = s) ns ∧
    buildReactiveFunctions (some "") gb files ns =
      buildReactiveFunctions none gb files ns := by
  constructor
  · induction files generalizing ns with
    | nil => rfl
    | cons f rest ih =>
        by_cases h : functionName f.1 = s
        · have hsel : selectedFn (some s) (functionName f.1) = true := by
            simp [selectedFn, h]
          have hstep : reactiveStep (some s) gb ns f = reactiveStep none gb ns f := by
            simp only [reactiveStep]
            rw [hsel]
            rfl
          calc buildReactiveFunctions (some s) gb (f :: rest) ns
              = buildReactiveFunctions (some s) gb rest (reactiveStep (some s) gb ns f) := rfl
            _ = buildReactiveFunctions none gb (rest.filter fun f' => functionName f'.1 = s)
                  (reactiveStep (some s) gb ns f) := ih _
            _ = buildReactiveFunctions none gb (rest.filter fun f' => functionName f'.1 = s)
                  (reactiveStep none gb ns f) := by rw [hstep]
            _ = buildReactiveFunctions none gb
                  ((f :: rest).filter fun f' => functionName f'.1 = s) ns := by
                  rw [List.filter_cons_of_pos (by simp [h])]
                  rfl
        · have h1 : (s = "") = False := eq_false hs
          have h2 : (s = functionName f.1) = False := eq_false (fun hh => h hh.symm)
          have hsel : selectedFn (some s) (functionName f.1) = false := by
            simp [selectedFn, h1, h2]
          have hstep : reactiveStep (some s) gb ns f = ns := by
            simp only [reactiveStep]
            rw [hsel]
            rfl
          calc buildReactiveFunctions (some s) gb (f :: rest) ns
              = buildReactiveFunctions (some s) gb rest (reactiveStep (some s) gb ns f) := rfl
            _ = buildReactiveFunctions (some s) gb rest ns := by rw [hstep]
            _ = buildReactiveFunctions none gb (rest.filter fun f' => functionName f'.1 = s) ns :=
                  ih ns
            _ = buildReactiveFunctions none gb
                  ((f :: rest).filter fun f' => functionName f'.1 = s) ns := by
                  rw [List.filter_cons_of_neg (by simp [h])]
  · induction files generalizing ns with
    | nil => rfl
    | cons f rest ih =>
        have hstep : reactiveStep (some "") gb ns f = reactiveStep none gb ns f := by
          unfold reactiveStep
          rfl
        calc buildReactiveFunctions (some "") gb (f :: rest) ns
            = buildReactiveFunctions (some "") gb rest (reactiveStep (some "") gb ns f) := rfl
          _ = buildReactiveFunctions none gb rest (reactiveStep (some "") gb ns f) := ih _
          _ = buildReactiveFunctions none gb rest (reactiveStep none gb ns f) := by rw [hstep]
          _ = buildReactiveFunctions none gb (f :: rest) ns := rfl

/-- C7: for two background-function files of the same group that both pass the
selector filter and both export the member name `n` — with no later file of the
group writing `n` — the value published at `namespace[group][n]` after the
reactive pass is the one exported by the file processed later in traversal
order (last writer wins), and every member name exported by either file is
present in `namespace[group]` afterwards. -/
theorem c7_last_writer_wins (env : Option String) (gb : Bool) (g n : String)
    (v1 v2 : Value) (A B C : List (String × JSObject)) (f1 f2 : String × JSObject)
    (ns : Namespace)
    (hg1 : groupNameReactive gb f1.1 = g) (hg2 : groupNameReactive gb f2.1 = g)
    (hs1 : selectedFn env (functionName f1.1) = true)
    (hs2 : selectedFn env (functionName f2.1) = true)
    (hn1 : getKey f1.2 n = some v1) (hn2 : getKey f2.2 n = some v2)
    (hnd : (f2.2.map Prod.fst).Nodup)
    (hC : ∀ f ∈ C, selectedFn env (functionName f.1) = true →
      groupNameReactive gb f.1 = g → getKey f.2 n = none) :
    getKey (groupObj (buildReactiveFunctions env gb (A ++ f1 :: B ++ f2 :: C) ns) g) n =
      some v2 ∧
    (∀ m w, getKey f1.2 m = some w ∨ getKey f2.2 m = some w →
      (getKey (groupObj (buildReactiveFunctions env gb (A ++ f1 :: B ++ f2 :: C) ns) g)
        m).isSome) := by
  have hsplit : buildReactiveFunctions env gb (A ++ f1 :: B ++ f2 :: C) ns =
      buildReactiveFunctions env gb C
        (reactiveStep env gb
          (buildReactiveFunctions env gb B
            (reactiveStep env gb (buildReactiveFunctions env gb A ns) f1)) f2) := by
    rw [buildReactive_append, buildReactive_append]
    rfl
  have h2obj : groupObj
      (reactiveStep env gb
        (buildReactiveFunctions env gb B
          (reactiveStep env gb (buildReactiveFunctions env gb A ns) f1)) f2) g =
      spread (groupObj
        (buildReactiveFunctions env gb B
          (reactiveStep env gb (buildReactiveFunctions env gb A ns) f1)) g) f2.2 := by
    rw [← hg2]
    exact reactiveStep_groupObj_self env gb _ f2 hs2
  constructor
  · rw [hsplit, buildReactive_member_frame env gb C _ g n hC, h2obj]
    exact spread_getKey_of_nodup _ _ _ _ hnd hn2
  · intro m w hmw
    rw [hsplit]
    apply buildReactive_member_mono
    rcases hmw with hm1 | hm2
    · apply reactiveStep_member_mono
      apply buildReactive_member_mono
      have h1obj : groupObj
          (reactiveStep env gb (buildReactiveFunctions env gb A ns) f1) g =
          spread (groupObj (buildReactiveFunctions env gb A ns) g) f1.2 := by
        rw [← hg1]
        exact reactiveStep_groupObj_self env gb _ f1 hs1
      rw [h1obj]
      exact spread_getKey_isSome _ _ _ (by rw [hm1]; rfl)
    · rw [h2obj]
      exact spread_getKey_isSome _ _ _ (by rw [hm2]; rfl)

/-- C1 amended: after a successful endpoint pass every group with a discovered
endpoint file has an adapter published under `namespace[group].api`, but the
adapter is `functions.https.onRequest(app)` for the single shared express
application, not a dedicated per-group instance: every route of every group's
router is mounted on (hence exposed by) that shared application, so a group's
published adapter also serves the routes of all other groups. -/
theorem c1_amended (gc gb : Bool) (files : List (String × Endpoint)) (ns : Namespace)
    (s : RestState) (h : buildRestfulApi gc gb files ns = Except.ok s) :
    (∀ f ∈ files, getKey (groupObj s.exports (groupNameRest gb f.1)) "api" = some Value.api) ∧
    (∀ rid r, s.routers.get? rid = some r → ∀ l ∈ r, routeExposed s l) := by
  have hwf0 := restWF_init ns
  constructor
  · exact runRest_api_present gc gb files _ s hwf0 h
  · intro rid r hr l hl
    have hmount : Mounted s := runRest_mounted gc gb files _ s hwf0 h (mounted_init ns)
    obtain ⟨hlt, _⟩ := List.get?_eq_some.mp hr
    refine ⟨rid, hmount rid hlt, ?_⟩
    rw [hr]
    exact hl

/-- C3 amended: in a successful endpoint pass every discovered file has a
supported request type, and the route list of each group's router is exactly
one route per file of that group, in traversal order, at path
`/{group}/{name}` — `{name}` being the explicit non-empty `name` field if
present, else the filename with the FIRST occurrence of `.endpoint` removed
(this coincides with stripping the trailing tag whenever `.endpoint` occurs
only as the trailing tag) — carrying the descriptor's middleware list (empty
when absent) and handler, on the declared method. -/
theorem c3_amended (gc gb : Bool) (files : List (String × Endpoint)) (ns : Namespace)
    (s : RestState) (h : buildRestfulApi gc gb files ns = Except.ok s) :
    (∀ f ∈ files, ∃ m, dispatchMethod f.2.requestType = some m) ∧
    (∀ g, groupRoutes s g =
      (files.filter fun f => groupNameRest gb f.1 = g).flatMap (expectedRoutes gb)) := by
  have hwf0 := restWF_init ns
  refine ⟨runRest_all_supported gc gb files _ s hwf0 h, ?_⟩
  intro g
  have hcorr := runRest_groupRoutes gc gb files _ s hwf0 h g
  rwa [groupRoutes_init, List.nil_append] at hcorr

/-- C4: an endpoint descriptor whose request type is missing or not one of
GET, POST, PUT, DELETE, PATCH makes the per-file registration step
(`buildEndpoint`) throw the descriptive error naming the requirement, with no
route registered on the router; `buildRestfulApi` rethrows it wrapped with the
offending file and group, and the thrown state has exactly the routes and
namespace of the files processed before. -/
theorem c4_unsupported_request_type (gc gb : Bool) (pre post : List (String × Endpoint))
    (f : String × Endpoint) (ns : Namespace) (sPre : RestState)
    (hpre : runRest gc gb pre { exports := ns, app := [], groupRouters := [], routers := [] } =
      Except.ok sPre)
    (hf : dispatchMethod f.2.requestType = none) :
    (∀ g r, ∃ r2, buildEndpoint gc f.1 g r f.2 =
        Except.error (unsupportedRequestTypeMsg, r2) ∧ routeLayers r2 = routeLayers r) ∧
    (∃ sErr, buildRestfulApi gc gb (pre ++ f :: post) ns =
        Except.error (restFailMsg f.1 (groupNameRest gb f.1), sErr) ∧
      (∀ g, groupRoutes sErr g = groupRoutes sPre g) ∧
      sErr.exports = sPre.exports) := by
  have hwf0 := restWF_init ns
  obtain ⟨hwfPre, _, _, _⟩ := runRest_extends gc gb pre _ sPre hwf0 hpre
  constructor
  · intro g r
    refine ⟨r ++ corsLayersOf gc f.2 ++ uploadLayersOf f.2, ?_, ?_⟩
    · simp only [buildEndpoint, hf]
    · rw [routeLayers_append, routeLayers_append, routeLayers_cors, routeLayers_upload,
        List.append_nil, List.append_nil]
  · cases hstep : restStep gc gb sPre f with
    | ok s2 =>
        obtain ⟨rid, m, hd, _⟩ := restStep_ok_spec gc gb sPre s2 f hwfPre hstep
        rw [hf] at hd
        exact Option.noConfusion hd
    | error err =>
        rcases err with ⟨msg, sErr⟩
        obtain ⟨hmsg, _, hexp, _, hroutes⟩ := restStep_err_spec gc gb sPre sErr f msg hwfPre hstep
        refine ⟨sErr, ?_, hroutes, hexp⟩
        unfold buildRestfulApi
        rw [runRest_append, hpre]
        show runRest gc gb (f :: post) sPre = _
        unfold runRest
        rw [hstep, hmsg]

/-- C5: with global CORS disabled, once an endpoint file with
`enableCors: true` in its options is processed, cors middleware is registered
on its group's shared router, and on the final router a cors layer sits
strictly before the route registered by any later file of the same group. -/
theorem c5_cors_henceforth (gb : Bool) (pre mid post : List (String × Endpoint))
    (fc fr : String × Endpoint) (ns : Namespace) (s : RestState) (g : String)
    (hgc : groupNameRest gb fc.1 = g) (hgr : groupNameRest gb fr.1 = g)
    (hopt : (fc.2.options.map EndpointOptions.enableCors).getD false = true)
    (hrun : buildRestfulApi false gb (pre ++ fc :: mid ++ fr :: post) ns = Except.ok s) :
    expectedRoutes gb fr ≠ [] ∧
    ∃ rid r, getKey s.groupRouters g = some rid ∧ s.routers.get? rid = some r ∧
      ∀ l ∈ expectedRoutes gb fr, corsGuards r l := by
  have hwf0 := restWF_init ns
  unfold buildRestfulApi at hrun
  obtain ⟨sC, hrunC, hrunR⟩ := runRest_ok_decompose false gb _ (fr :: post) _ s hrun
  obtain ⟨sA, hrunA, hrunCM⟩ := runRest_ok_decompose false gb pre (fc :: mid) _ sC hrunC
  obtain ⟨hwfA, _, _, _⟩ := runRest_extends false gb pre _ sA hwf0 hrunA
  unfold runRest at hrunCM
  rcases hstepC : restStep false gb sA fc with errC | sB
  · rw [hstepC] at hrunCM
    exact Except.noConfusion hrunCM
  rw [hstepC] at hrunCM
  obtain ⟨_, _, _, _, _, _, _, _, _, _, _, _, _, _, hwfB⟩ :=
    restStep_ok_spec false gb sA sB fc hwfA hstepC
  obtain ⟨hwfC, hpresBC, hextBC, _⟩ := runRest_extends false gb mid sB sC hwfB hrunCM
  unfold runRest at hrunR
  rcases hstepR : restStep false gb sC fr with errR | sD
  · rw [hstepR] at hrunR
    exact Except.noConfusion hrunR
  rw [hstepR] at hrunR
  obtain ⟨_, _, _, _, _, _, _, _, _, _, _, _, _, _, hwfD⟩ :=
    restStep_ok_spec false gb sC sD fr hwfC hstepR
  obtain ⟨_, hpresD, hextD, _⟩ := runRest_extends false gb post sD s hwfD hrunR
  have hcors : corsLayersOf false fc.2 = [Layer.cors] := by
    simp [corsLayersOf, hopt]
  obtain ⟨ridB, rB, hlookB, hgetB, hmemB⟩ :=
    restStep_cors_member false gb sA sB fc hwfA hstepC hcors
  rw [hgc] at hlookB
  have hlookC : getKey sC.groupRouters g = some ridB := hpresBC g ridB hlookB
  obtain ⟨ext1, hgetC⟩ := hextBC ridB rB hgetB
  have hmemC : Layer.cors ∈ currentRouter sC (groupNameRest gb fr.1) := by
    rw [hgr]
    unfold currentRouter
    rw [hlookC]
    dsimp only
    rw [hgetC]
    simp only [Option.getD_some]
    exact List.mem_append_left _ hmemB
  obtain ⟨ridD, rD, hlookD, hgetD, hguards⟩ :=
    restStep_cors_position false gb sC sD fr hwfC hstepR hmemC
  rw [hgr] at hlookD
  have hlookS : getKey s.groupRouters g = some ridD := hpresD g ridD hlookD
  obtain ⟨ext2, hgetS⟩ := hextD ridD rD hgetD
  constructor
  · obtain ⟨rid2, m2, hd2, _⟩ := restStep_ok_spec false gb sC sD fr hwfC hstepR
    unfold expectedRoutes
    rw [hd2]
    simp
  · exact ⟨ridD, rD ++ ext2, hlookS, hgetS,
      fun l hl => corsGuards_extend rD ext2 l (hguards l hl)⟩

/-- C8: when endpoint registration fails partway, construction aborts with the
wrapped error and no rollback: the namespace (and shared-application mount
list) carried by the thrown state are exactly those produced by the files
processed before the failing one. -/
theorem c8_no_rollback (gc gb : Bool) (pre post : List (String × Endpoint))
    (f : String × Endpoint) (ns : Namespace) (sPre : RestState)
    (hpre : runRest gc gb pre { exports := ns, app := [], groupRouters := [], routers := [] } =
      Except.ok sPre)
    (hf : dispatchMethod f.2.requestType = none) :
    ∃ sErr, buildRestfulApi gc gb (pre ++ f :: post) ns =
        Except.error (restFailMsg f.1 (groupNameRest gb f.1), sErr) ∧
      sErr.exports = sPre.exports ∧ sErr.app = sPre.app := by
  have hwf0 := restWF_init ns
  obtain ⟨hwfPre, _, _, _⟩ := runRest_extends gc gb pre _ sPre hwf0 hpre
  cases hstep : restStep gc gb sPre f with
  | ok s2 =>
      obtain ⟨rid, m, hd, _⟩ := restStep_ok_spec gc gb sPre s2 f hwfPre hstep
      rw [hf] at hd
      exact Option.noConfusion hd
  | error err =>
      rcases err with ⟨msg, sErr⟩
      obtain ⟨hmsg, _, hexp, happ, _⟩ := restStep_err_spec gc gb sPre sErr f msg hwfPre hstep
      refine ⟨sErr, ?_, hexp, happ⟩
      unfold buildRestfulApi
      rw [runRest_append, hpre]
      show runRest gc gb (f :: post) sPre = _
      unfold runRest
      rw [hstep, hmsg]

/-- C9: construction only writes namespace keys that are group keys of some
discovered file — every other key keeps its caller-supplied value — and within
a touched group the endpoint pass's publication of the `api` entry preserves
every previously merged member other than `api` (insert/merge, not wholesale
replacement). -/
theorem c9_namespace_frame (env : Option String) (gb gc : Bool)
    (ffiles : List (String × JSObject)) (efiles : List (String × Endpoint))
    (ns : Namespace) (k : String)
    (hk1 : ∀ f ∈ ffiles, groupNameReactive gb f.1 ≠ k)
    (hk2 : ∀ f ∈ efiles, groupNameRest gb f.1 ≠ k) :
    getKey (buildReactiveFunctions env gb ffiles ns) k = getKey ns k ∧
    (∀ s, buildRestfulApi gc gb efiles (buildReactiveFunctions env gb ffiles ns) =
        Except.ok s → getKey s.exports k = getKey ns k) ∧
    (∀ ns2 s g m, buildRestfulApi gc gb efiles ns2 = Except.ok s → m ≠ "api" →
      getKey (groupObj s.exports g) m = getKey (groupObj ns2 g) m) := by
  refine ⟨buildReactive_getKey_other env gb ffiles ns k hk1, ?_, ?_⟩
  · intro s hs
    have hfr := runRest_exports_other gc gb efiles _ s
      (restWF_init (buildReactiveFunctions env gb ffiles ns)) hs k hk2
    rw [hfr]
    exact buildReactive_getKey_other env gb ffiles ns k hk1
  · intro ns2 s g m hs hm
    exact runRest_member_other gc gb efiles _ s (restWF_init ns2) hs g m hm

/-- C10: a `name` field that is absent or present-but-empty is JS-falsy, so
name resolution falls back to the filename-derived name; a glob-discovered
endpoint file has basename `stem ++ ".endpoint.js"` with a non-empty stem, so
the derived name is non-empty and the registered route path is never the bare
`/{group}/`. -/
theorem c10_empty_name_fallback (e : Endpoint) (file stem : String) (gc : Bool)
    (g : String) (r : RouterState)
    (hname : e.name = none ∨ e.name = some "")
    (hstem : stem ≠ "")
    (hparse : parseName file = stem ++ ".endpoint") :
    resolveEndpointName e file = endpointFileName file ∧
    resolveEndpointName e file ≠ "" ∧
    (∀ r', buildEndpoint gc file g r e = Except.ok r' →
      ∃ m, r'.get? (r'.length - 1) = some (Layer.route m
          ("/" ++ g ++ "/" ++ resolveEndpointName e file) (middlewaresOf e) e.handler) ∧
        "/" ++ g ++ "/" ++ resolveEndpointName e file ≠ "/" ++ g ++ "/") := by
  have hres : resolveEndpointName e file = endpointFileName file := by
    rcases hname with hn | hn <;> simp [resolveEndpointName, hn]
  have hlen : 0 < (endpointFileName file).length := by
    unfold endpointFileName
    rw [hparse]
    unfold replaceFirst
    show 0 < (replaceFirstAux ".endpoint".data (stem ++ ".endpoint").data).length
    have hge := replaceFirstAux_length ".endpoint".data (stem ++ ".endpoint").data
    have hdata : (stem ++ ".endpoint").data = stem.data ++ ".endpoint".data :=
      String.data_append stem ".endpoint"
    have hpos : 0 < stem.data.length :=
      List.length_pos.mpr (string_data_ne_nil stem hstem)
    rw [hdata] at hge
    simp only [List.length_append, Nat.add_sub_cancel] at hge
    exact lt_of_lt_of_le hpos hge
  have hne : resolveEndpointName e file ≠ "" := by
    rw [hres]
    exact string_ne_empty_of_length_pos _ hlen
  refine ⟨hres, hne, ?_⟩
  intro r' hok
  unfold buildEndpoint at hok
  cases hd : dispatchMethod e.requestType with
  | none =>
      rw [hd] at hok
      exact Except.noConfusion hok
  | some m =>
      rw [hd] at hok
      dsimp only at hok
      injection hok with h2
      subst h2
      refine ⟨m, ?_, ?_⟩
      · rw [List.length_append]
        simp only [List.length_singleton, Nat.add_sub_cancel]
        exact get?_concat_length _ _
      · intro heq
        have hlen2 := congrArg String.length heq
        simp only [String.length_append] at hlen2
        have : (resolveEndpointName e file).length = 0 := by omega
        rw [hres] at this
        omega

/-- C1 counterexample: two endpoint files in distinct groups `g1` and `g2`.
The value published at `namespace.g1.api` is the onRequest wrapper of the one
shared application, and the route `POST /g2/y` — a route of group `g2`, absent
from `g1`'s router — is exposed through that shared application.  This refutes
the claim that the adapter published under `namespace[group].api` is a
dedicated per-group instance exposing only that group's routes. -/
theorem c1_counterexample :
    buildRestfulApi false false
      [("r/g1/x.endpoint.js",
        { name := none, requestType := "GET", handler := 1, options := none }),
       ("r/g2/y.endpoint.js",
        { name := none, requestType := "POST", handler := 2, options := none })] [] =
      Except.ok
        { exports := [("g1", [("api", Value.api)]), ("g2", [("api", Value.api)])],
          app := [0, 1],
          groupRouters := [("g1", 0), ("g2", 1)],
          routers := [[Layer.route Method.get "/g1/x" [] 1],
                      [Layer.route Method.post "/g2/y" [] 2]] } ∧
    getKey (groupObj [("g1", [("api", Value.api)]), ("g2", [("api", Value.api)])] "g1")
      "api" = some Value.api ∧
    routeExposed
      { exports := [("g1", [("api", Value.api)]), ("g2", [("api", Value.api)])],
        app := [0, 1],
        groupRouters := [("g1", 0), ("g2", 1)],
        routers := [[Layer.route Method.get "/g1/x" [] 1],
                    [Layer.route Method.post "/g2/y" [] 2]] }
      (Layer.route Method.post "/g2/y" [] 2) ∧
    Layer.route Method.post "/g2/y" [] 2 ∉
      groupRoutes
        { exports := [("g1", [("api", Value.api)]), ("g2", [("api", Value.api)])],
          app := [0, 1],
          groupRouters := [("g1", 0), ("g2", 1)],
          routers := [[Layer.route Method.get "/g1/x" [] 1],
                      [Layer.route Method.post "/g2/y" [] 2]] } "g1" := by
  refine ⟨rfl, ?_, ?_, ?_⟩ <;> decide

/-- C3 counterexample: the discovered file `g/a.endpointx.endpoint.js` has no
explicit name, so JS `filePath.name.replace('.endpoint', '')` removes the
FIRST occurrence of `.endpoint` and registers the route at
`/g/ax.endpoint`, not at `/g/a.endpointx` (the filename with the trailing
`.endpoint` tag stripped, as the claim states). -/
theorem c3_counterexample :
    buildRestfulApi false false
      [("g/a.endpointx.endpoint.js",
        { name := none, requestType := "GET", handler := 7, options := none })] [] =
      Except.ok
        { exports := [("g", [("api", Value.api)])],
          app := [0],
          groupRouters := [("g", 0)],
          routers := [[Layer.route Method.get "/g/ax.endpoint" [] 7]] } ∧
    groupRoutes
      { exports := [("g", [("api", Value.api)])],
        app := [0],
        groupRouters := [("g", 0)],
        routers := [[Layer.route Method.get "/g/ax.endpoint" [] 7]] } "g" =
      [Layer.route Method.get "/g/ax.endpoint" [] 7] ∧
    ("/g/ax.endpoint" : String) ≠ "/g/a.endpointx" ∧
    Layer.route Method.get "/g/a.endpointx" [] 7 ∉
      groupRoutes
        { exports := [("g", [("api", Value.api)])],
          app := [0],
          groupRouters := [("g", 0)],
          routers := [[Layer.route Method.get "/g/ax.endpoint" [] 7]] } "g" := by
  refine ⟨rfl, ?_, ?_, ?_⟩ <;> decide

/-- Witness for C1 amended at the two-group instance. -/
theorem c1_amended_witness :
    (∀ f ∈ [(("r/g1/x.endpoint.js" : String),
        ({ name := none, requestType := "GET", handler := 1, options := none } : Endpoint)),
       ("r/g2/y.endpoint.js",
        { name := none, requestType := "POST", handler := 2, options := none })],
      getKey (groupObj
        [("g1", [("api", Value.api)]), ("g2", [("api", Value.api)])]
        (groupNameRest false f.1)) "api" = some Value.api) ∧
    (∀ rid r,
      ([[Layer.route Method.get "/g1/x" [] 1],
        [Layer.route Method.post "/g2/y" [] 2]] : List RouterState).get? rid = some r →
      ∀ l ∈ r, routeExposed
        { exports := [("g1", [("api", Value.api)]), ("g2", [("api", Value.api)])],
          app := [0, 1],
          groupRouters := [("g1", 0), ("g2", 1)],
          routers := [[Layer.route Method.get "/g1/x" [] 1],
                      [Layer.route Method.post "/g2/y" [] 2]] } l) :=
  c1_amended false false
    [("r/g1/x.endpoint.js",
      { name := none, requestType := "GET", handler := 1, options := none }),
     ("r/g2/y.endpoint.js",
      { name := none, requestType := "POST", handler := 2, options := none })] []
    { exports := [("g1", [("api", Value.api)]), ("g2", [("api", Value.api)])],
      app := [0, 1],
      groupRouters := [("g1", 0), ("g2", 1)],
      routers := [[Layer.route Method.get "/g1/x" [] 1],
                  [Layer.route Method.post "/g2/y" [] 2]] }
    rfl

/-- Witness for C3 amended at a one-file instance. -/
theorem c3_amended_witness :
    (∀ f ∈ [(("g/x.endpoint.js" : String),
        ({ name := none, requestType := "GET", handler := 1, options := none } : Endpoint))],
      ∃ m, dispatchMethod f.2.requestType = some m) ∧
    (∀ g, groupRoutes
        { exports := [("g", [("api", Value.api)])],
          app := [0],
          groupRouters := [("g", 0)],
          routers := [[Layer.route Method.get "/g/x" [] 1]] } g =
      ([(("g/x.endpoint.js" : String),
        ({ name := none, requestType := "GET", handler := 1, options := none } : Endpoint))].filter
          fun f => groupNameRest false f.1 = g).flatMap (expectedRoutes false)) :=
  c3_amended false false
    [("g/x.endpoint.js", { name := none, requestType := "GET", handler := 1, options := none })]
    []
    { exports := [("g", [("api", Value.api)])],
      app := [0],
      groupRouters := [("g", 0)],
      routers := [[Layer.route Method.get "/g/x" [] 1]] }
    rfl

/-- Witness for C4 at a descriptor with request type `"HEAD"`. -/
theorem c4_witness :
    (∀ g r, ∃ r2, buildEndpoint false "g/h.endpoint.js" g r
        { name := none, requestType := "HEAD", handler := 9, options := none } =
        Except.error (unsupportedRequestTypeMsg, r2) ∧ routeLayers r2 = routeLayers r) ∧
    (∃ sErr, buildRestfulApi false false
        [("g/h.endpoint.js",
          { name := none, requestType := "HEAD", handler := 9, options := none })] [] =
        Except.error
          (restFailMsg "g/h.endpoint.js" (groupNameRest false "g/h.endpoint.js"), sErr) ∧
      (∀ g, groupRoutes sErr g =
        groupRoutes { exports := [], app := [], groupRouters := [], routers := [] } g) ∧
      sErr.exports =
        RestState.exports { exports := [], app := [], groupRouters := [], routers := [] }) :=
  c4_unsupported_request_type false false [] []
    ("g/h.endpoint.js", { name := none, requestType := "HEAD", handler := 9, options := none })
    [] { exports := [], app := [], groupRouters := [], routers := [] } rfl (by decide)

/-- Witness for C5 at a two-file group where the first file enables CORS. -/
theorem c5_witness :
    expectedRoutes false ("r/g/b.endpoint.js",
      { name := none, requestType := "POST", handler := 4, options := none }) ≠ [] ∧
    ∃ rid r,
      getKey (RestState.groupRouters
        { exports := [("g", [("api", Value.api)])],
          app := [0, 0],
          groupRouters := [("g", 0)],
          routers := [[Layer.cors, Layer.route Method.get "/g/a" [] 3,
            Layer.route Method.post "/g/b" [] 4]] }) "g" = some rid ∧
      (RestState.routers
        { exports := [("g", [("api", Value.api)])],
          app := [0, 0],
          groupRouters := [("g", 0)],
          routers := [[Layer.cors, Layer.route Method.get "/g/a" [] 3,
            Layer.route Method.post "/g/b" [] 4]] }).get? rid = some r ∧
      ∀ l ∈ expectedRoutes false ("r/g/b.endpoint.js",
        { name := none, requestType := "POST", handler := 4, options := none }),
        corsGuards r l :=
  c5_cors_henceforth false [] [] []
    ("r/g/a.endpoint.js",
      { name := none, requestType := "GET", handler := 3,
        options := some { enableCors := true, enableFileUpload := false, middlewares := none } })
    ("r/g/b.endpoint.js",
      { name := none, requestType := "POST", handler := 4, options := none })
    []
    { exports := [("g", [("api", Value.api)])],
      app := [0, 0],
      groupRouters := [("g", 0)],
      routers := [[Layer.cors, Layer.route Method.get "/g/a" [] 3,
        Layer.route Method.post "/g/b" [] 4]] }
    "g" (by decide) (by decide) (by decide) rfl

/-- Witness for C6 amended at selector value `"foo"`. -/
theorem c6_amended_witness :
    buildReactiveFunctions (some "foo") false
      [("g/foo.function.js", [("a", Value.fn 1)]), ("g/bar.function.js", [("b", Value.fn 2)])]
      [] =
      buildReactiveFunctions none false
        ([("g/foo.function.js", [("a", Value.fn 1)]),
          ("g/bar.function.js", [("b", Value.fn 2)])].filter
          fun f => functionName f.1 = "foo") [] ∧
    buildReactiveFunctions (some "") false
      [("g/foo.function.js", [("a", Value.fn 1)]), ("g/bar.function.js", [("b", Value.fn 2)])]
      [] =
      buildReactiveFunctions none false
        [("g/foo.function.js", [("a", Value.fn 1)]), ("g/bar.function.js", [("b", Value.fn 2)])]
        [] :=
  c6_amended "foo" (by decide) false
    [("g/foo.function.js", [("a", Value.fn 1)]), ("g/bar.function.js", [("b", Value.fn 2)])] []

/-- Witness for C7 at two one-export files of the same group colliding on
member name `"h"`. -/
theorem c7_witness :
    getKey (groupObj (buildReactiveFunctions none false
      [("g/a.function.js", [("h", Value.fn 1), ("x", Value.fn 3)]),
       ("g/b.function.js", [("h", Value.fn 2)])] []) "g") "h" = some (Value.fn 2) ∧
    (∀ m w,
      getKey [("h", Value.fn 1), ("x", Value.fn 3)] m = some w ∨
        getKey [("h", Value.fn 2)] m = some w →
      (getKey (groupObj (buildReactiveFunctions none false
        [("g/a.function.js", [("h", Value.fn 1), ("x", Value.fn 3)]),
         ("g/b.function.js", [("h", Value.fn 2)])] []) "g") m).isSome) :=
  c7_last_writer_wins none false "g" "h" (Value.fn 1) (Value.fn 2) [] [] []
    ("g/a.function.js", [("h", Value.fn 1), ("x", Value.fn 3)])
    ("g/b.function.js", [("h", Value.fn 2)]) []
    (by decide) (by decide) (by decide) (by decide) (by decide) (by decide) (by decide)
    (by decide)

/-- Witness for C8 at an empty prefix and an unsupported request type. -/
theorem c8_witness :
    ∃ sErr, buildRestfulApi false false
        [("q/bad.endpoint.js",
          { name := none, requestType := "FOO", handler := 0, options := none })]
        [("keep", [("z", Value.fn 1)])] =
        Except.error
          (restFailMsg "q/bad.endpoint.js" (groupNameRest false "q/bad.endpoint.js"), sErr) ∧
      sErr.exports = RestState.exports
        { exports := [("keep", [("z", Value.fn 1)])], app := [],
          groupRouters := [], routers := [] } ∧
      sErr.app = RestState.app
        { exports := [("keep", [("z", Value.fn 1)])], app := [],
          groupRouters := [], routers := [] } :=
  c8_no_rollback false false [] []
    ("q/bad.endpoint.js", { name := none, requestType := "FOO", handler := 0, options := none })
    [("keep", [("z", Value.fn 1)])]
    { exports := [("keep", [("z", Value.fn 1)])], app := [], groupRouters := [], routers := [] }
    rfl (by decide)

/-- Witness for C9 at a namespace with an untouched caller-supplied key. -/
theorem c9_witness :
    getKey (buildReactiveFunctions none false
      [("g/a.function.js", [("h", Value.fn 1)])] [("other", [("z", Value.fn 5)])]) "other" =
      getKey [("other", [("z", Value.fn 5)])] "other" ∧
    (∀ s, buildRestfulApi false false
        [("g/x.endpoint.js",
          { name := none, requestType := "GET", handler := 1, options := none })]
        (buildReactiveFunctions none false
          [("g/a.function.js", [("h", Value.fn 1)])] [("other", [("z", Value.fn 5)])]) =
        Except.ok s →
      getKey s.exports "other" = getKey [("other", [("z", Value.fn 5)])] "other") ∧
    (∀ ns2 s g m, buildRestfulApi false false
        [("g/x.endpoint.js",
          { name := none, requestType := "GET", handler := 1, options := none })] ns2 =
        Except.ok s → m ≠ "api" →
      getKey (groupObj s.exports g) m = getKey (groupObj ns2 g) m) :=
  c9_namespace_frame none false false
    [("g/a.function.js", [("h", Value.fn 1)])]
    [("g/x.endpoint.js", { name := none, requestType := "GET", handler := 1, options := none })]
    [("other", [("z", Value.fn 5)])] "other" (by decide) (by decide)

/-- Witness for C10 at a present-but-empty `name` field. -/
theorem c10_witness :
    resolveEndpointName
      { name := some "", requestType := "GET", handler := 5, options := none }
      "r/billing/invoices.endpoint.js" =
      endpointFileName "r/billing/invoices.endpoint.js" ∧
    resolveEndpointName
      { name := some "", requestType := "GET", handler := 5, options := none }
      "r/billing/invoices.endpoint.js" ≠ "" ∧
    (∀ r', buildEndpoint false "r/billing/invoices.endpoint.js" "billing" []
        { name := some "", requestType := "GET", handler := 5, options := none } =
        Except.ok r' →
      ∃ m, r'.get? (r'.length - 1) = some (Layer.route m
          ("/" ++ "billing" ++ "/" ++ resolveEndpointName
            { name := some "", requestType := "GET", handler := 5, options := none }
            "r/billing/invoices.endpoint.js")
          (middlewaresOf
            { name := some "", requestType := "GET", handler := 5, options := none })
          (Endpoint.handler
            { name := some "", requestType := "GET", handler := 5, options := none })) ∧
        "/" ++ "billing" ++ "/" ++ resolveEndpointName
          { name := some "", requestType := "GET", handler := 5, options := none }
          "r/billing/invoices.endpoint.js" ≠ "/" ++ "billing" ++ "/") :=
  c10_empty_name_fallback
    { name := some "", requestType := "GET", handler := 5, options := none }
    "r/billing/invoices.endpoint.js" "invoices" false "billing" []
    (Or.inr rfl) (by decide) (by decide)

end FunctionParser
